import Mathlib

/-!
Verification development for the diff-shades result model, persistence layer,
diff engine and analysis pipeline (src/diff_shades/results.py, utils.py,
analysis.py, cli.py), as a shallow embedding in Lean 4.

Python strings are modelled as Lean `String`, Python ints as `Int` (or `Nat`
where the source value is always non-negative), Python floats / JSON numbers
as `ℚ`, dicts as insertion-ordered association lists, and raising code as
`Except String`.
-/

set_option linter.unusedVariables false

namespace DiffShades

/-! ### Python `str.splitlines`

Model of CPython `str.splitlines(keepends=...)`: a line ends at any of the
line-boundary characters recognised by CPython (\n, \r, \r\n as a unit, \v,
\f, FS, GS, RS, NEL, LINE SEPARATOR, PARAGRAPH SEPARATOR); a final segment
with no terminator still forms a line. -/

def isLineBreak (c : Char) : Bool :=
  c == '\n' || c == '\r' || c == '\x0b' || c == '\x0c' ||
  c.val == 0x1c || c.val == 0x1d || c.val == 0x1e || c.val == 0x85 ||
  c.val == 0x2028 || c.val == 0x2029

def splitlinesKE : List Char → List Char → List String
  | [], acc => if acc.isEmpty then [] else [String.mk acc.reverse]
  | '\r' :: '\n' :: rest, acc =>
      String.mk (acc.reverse ++ ['\r', '\n']) :: splitlinesKE rest []
  | c :: rest, acc =>
      if isLineBreak c then String.mk (acc.reverse ++ [c]) :: splitlinesKE rest []
      else splitlinesKE rest (c :: acc)

def splitlinesNK : List Char → List Char → List String
  | [], acc => if acc.isEmpty then [] else [String.mk acc.reverse]
  | '\r' :: '\n' :: rest, acc => String.mk acc.reverse :: splitlinesNK rest []
  | c :: rest, acc =>
      if isLineBreak c then String.mk acc.reverse :: splitlinesNK rest []
      else splitlinesNK rest (c :: acc)

/-- `s.splitlines(keepends=True)`. -/
def splitlinesKeepends (s : String) : List String := splitlinesKE s.data []

/-- `s.splitlines()`. -/
def splitlines (s : String) : List String := splitlinesNK s.data []

/-- `s.startswith(p)` (computed on the character lists so that concrete
instances reduce inside the kernel). -/
def strStartsWith (s p : String) : Bool := p.data.isPrefixOf s.data

/-- `s.endswith(p)` / `s[-len(p):] == p`. -/
def strEndsWith (s p : String) : Bool := p.data.reverse.isPrefixOf s.data.reverse

/-- `s[n:]` (drop the first `n` characters). -/
def strDrop (s : String) (n : Nat) : String := String.mk (s.data.drop n)

/-- Number of characters of `s`. -/
def strLen (s : String) : Nat := s.data.length

/-! ### CPython `difflib.SequenceMatcher(None, a, b)` over lists of lines

`diff_shades.utils.unified_diff` calls `difflib.unified_diff`, which uses
`SequenceMatcher` with `isjunk=None`.  With `isjunk=None` the junk set
`bjunk` is empty, so the junk-extension loops of `find_longest_match` are
no-ops and are not modelled; the `autojunk` "popular element" filtering of
`b2j` (active when `len(b) >= 200`) is modelled by `isPopular`. -/

/-- `ntest = n // 100 + 1` in `SequenceMatcher.__chain_b`. -/
def ntest (b : List String) : Nat := b.length / 100 + 1

/-- An element is "popular" (dropped from `b2j`) iff autojunk is active
(`len(b) >= 200`) and it occurs more than `ntest` times in `b`. -/
def isPopular (b : List String) (x : String) : Bool :=
  decide (200 ≤ b.length) && decide (ntest b < b.count x)

/-- `j ∈ b2j.get(a[i], [])`: position `j` of `b` holds the same element as
position `i` of `a`, and that element was not dropped as popular. -/
def okPair (a b : List String) (i j : Nat) : Bool :=
  match a[i]? with
  | some x => b[j]? == some x && !(isPopular b x)
  | none => false

/-- Length of the matching "chain" ending at positions `(i, j)` — the value
`j2len[j]` holds at row `i` of the `find_longest_match` scan: the number of
consecutive pairs `a[i-t] == b[j-t]` (all non-popular) with `i-t ≥ alo`
and `j-t ≥ blo`. -/
def chainLen (a b : List String) (alo blo : Nat) : Nat → Nat → Nat
  | 0, j => if okPair a b 0 j then 1 else 0
  | i' + 1, 0 => if okPair a b (i' + 1) 0 then 1 else 0
  | i' + 1, j' + 1 =>
      if okPair a b (i' + 1) (j' + 1) then
        (if alo < i' + 1 ∧ blo < j' + 1 then chainLen a b alo blo i' j' else 0) + 1
      else 0

/-- The recursion of `chainLen` in the uniform form used by the proofs
(matching the `j2len` recurrence of `find_longest_match`). -/
theorem chainLen_eq (a b : List String) (alo blo i j : Nat) :
    chainLen a b alo blo i j =
      if okPair a b i j then
        (if alo < i ∧ blo < j then chainLen a b alo blo (i - 1) (j - 1) else 0) + 1
      else 0 := by
  match i, j with
  | 0, j =>
    rw [chainLen]
    by_cases hok : okPair a b 0 j
    · rw [if_pos hok, if_pos hok, if_neg (show ¬((alo < 0) ∧ blo < j) by omega)]
    · rw [if_neg hok, if_neg hok]
  | i' + 1, 0 =>
    rw [chainLen]
    by_cases hok : okPair a b (i' + 1) 0
    · rw [if_pos hok, if_pos hok,
        if_neg (show ¬(alo < i' + 1 ∧ blo < 0) by omega)]
    · rw [if_neg hok, if_neg hok]
  | i' + 1, j' + 1 => rfl

/-- A matching block `(i, j, size)` as produced by `find_longest_match`. -/
structure MatchBlock where
  i : Nat
  j : Nat
  size : Nat
deriving DecidableEq, Repr, Inhabited

/-- One step of the `find_longest_match` scan: at pair `(i, j)` the chain
length `k` is computed, and the best block is replaced by
`(i-k+1, j-k+1, k)` exactly when `k > bestsize`. -/
def scanStep (a b : List String) (alo blo : Nat) (i : Nat)
    (best : MatchBlock) (j : Nat) : MatchBlock :=
  let k := chainLen a b alo blo i j
  if best.size < k then ⟨i + 1 - k, j + 1 - k, k⟩ else best

/-- Scan row `i` over columns `j, j+1, ..., j+cnt-1`.  Columns `j` with
`a[i] != b[j]` (or popular `b[j]`) have `chainLen = 0` and never update the
best block, which models `for j in b2j.get(a[i], [])` iterating only the
matching columns in ascending order. -/
def scanRowGo (a b : List String) (alo blo : Nat) (i : Nat)
    (best : MatchBlock) (j : Nat) : Nat → MatchBlock
  | 0 => best
  | cnt + 1 => scanRowGo a b alo blo i (scanStep a b alo blo i best j) (j + 1) cnt

/-- Scan rows `i, i+1, ..., i+cnt-1`, each over columns `[blo, bhi)`. -/
def scanAllGo (a b : List String) (alo blo bhi : Nat)
    (best : MatchBlock) (i : Nat) : Nat → MatchBlock
  | 0 => best
  | cnt + 1 =>
      scanAllGo a b alo blo bhi
        (scanRowGo a b alo blo i best blo (bhi - blo)) (i + 1) cnt

/-- The `j2len` dynamic-programming scan of `find_longest_match`:
starting from `(besti, bestj, bestsize) = (alo, blo, 0)`, visit the pairs
`(i, j)` for `i ∈ [alo, ahi)`, `j ∈ [blo, bhi)` in lexicographic order and
keep the first block attaining the maximal chain length. -/
def scanBest (a b : List String) (alo ahi blo bhi : Nat) : MatchBlock :=
  scanAllGo a b alo blo bhi ⟨alo, blo, 0⟩ alo (ahi - alo)

/-- `a[i-1] == b[j-1]`-style guarded element comparison (false out of range). -/
def elemsEq (a b : List String) (i j : Nat) : Bool :=
  match a[i]?, b[j]? with
  | some x, some y => x == y
  | _, _ => false

/-- First extension loop of `find_longest_match`: grow the best block
backwards while the preceding elements are equal (with `isjunk=None` the
`not isbjunk(...)` conjunct is vacuous).  The loop decreases `m.i` by one
on every iteration, so running it with `m.i` as structural fuel computes
the loop's fixed point exactly (at fuel 0, `m.i = 0` and the guard is
already false). -/
def extendBackGo (a b : List String) (alo blo : Nat) : Nat → MatchBlock → MatchBlock
  | 0, m => m
  | fuel + 1, m =>
      if alo < m.i ∧ blo < m.j ∧ elemsEq a b (m.i - 1) (m.j - 1) then
        extendBackGo a b alo blo fuel ⟨m.i - 1, m.j - 1, m.size + 1⟩
      else m

def extendBack (a b : List String) (alo blo : Nat) (m : MatchBlock) : MatchBlock :=
  extendBackGo a b alo blo m.i m

/-- Second extension loop of `find_longest_match`: grow the best block
forwards while the following elements are equal.  The quantity
`ahi - (m.i + m.size)` decreases by one on every iteration, so it serves as
exact structural fuel (at fuel 0 the `< ahi` guard is already false). -/
def extendFwdGo (a b : List String) (ahi bhi : Nat) : Nat → MatchBlock → MatchBlock
  | 0, m => m
  | fuel + 1, m =>
      if m.i + m.size < ahi ∧ m.j + m.size < bhi ∧
          elemsEq a b (m.i + m.size) (m.j + m.size) then
        extendFwdGo a b ahi bhi fuel ⟨m.i, m.j, m.size + 1⟩
      else m

def extendFwd (a b : List String) (ahi bhi : Nat) (m : MatchBlock) : MatchBlock :=
  extendFwdGo a b ahi bhi (ahi - (m.i + m.size)) m

/-- `SequenceMatcher.find_longest_match(alo, ahi, blo, bhi)`. -/
def findLongestMatch (a b : List String) (alo ahi blo bhi : Nat) : MatchBlock :=
  extendFwd a b ahi bhi (extendBack a b alo blo (scanBest a b alo ahi blo bhi))

theorem chainLen_le_left (a b : List String) (alo blo : Nat) :
    ∀ i j, alo ≤ i → chainLen a b alo blo i j ≤ i + 1 - alo := by
  intro i
  induction i using Nat.strong_induction_on with
  | _ i ih =>
    intro j hi
    by_cases hok : okPair a b i j
    · rw [chainLen_eq, if_pos hok]
      by_cases hg : alo < i ∧ blo < j
      · rw [if_pos hg]
        have := ih (i - 1) (by omega) (j - 1) (by omega)
        omega
      · rw [if_neg hg]
        omega
    · rw [chainLen_eq, if_neg hok]
      omega

theorem chainLen_le_right (a b : List String) (alo blo : Nat) :
    ∀ i j, blo ≤ j → chainLen a b alo blo i j ≤ j + 1 - blo := by
  intro i
  induction i using Nat.strong_induction_on with
  | _ i ih =>
    intro j hj
    by_cases hok : okPair a b i j
    · rw [chainLen_eq, if_pos hok]
      by_cases hg : alo < i ∧ blo < j
      · rw [if_pos hg]
        have := ih (i - 1) (by omega) (j - 1) (by omega)
        omega
      · rw [if_neg hg]
        omega
    · rw [chainLen_eq, if_neg hok]
      omega

/-- The well-formedness invariant maintained on the best block throughout
`find_longest_match`. -/
structure BlockInv (alo blo ahi bhi : Nat) (m : MatchBlock) : Prop where
  ilb : alo ≤ m.i
  jlb : blo ≤ m.j
  zero : m.size = 0 → m = ⟨alo, blo, 0⟩
  iub : m.size ≠ 0 → m.i + m.size ≤ ahi
  jub : m.size ≠ 0 → m.j + m.size ≤ bhi

theorem scanStep_inv (a b : List String) (alo blo ahi bhi : Nat) (m : MatchBlock)
    (i j : Nat) (h : BlockInv alo blo ahi bhi m)
    (hi1 : alo ≤ i) (hi2 : i < ahi) (hj1 : blo ≤ j) (hj2 : j < bhi) :
    BlockInv alo blo ahi bhi (scanStep a b alo blo i m j) := by
  unfold scanStep
  by_cases hlt : m.size < chainLen a b alo blo i j
  · have hkl := chainLen_le_left a b alo blo i j hi1
    have hkr := chainLen_le_right a b alo blo i j hj1
    rw [if_pos hlt]
    refine ⟨?_, ?_, fun h0 => ?_, fun _ => ?_, fun _ => ?_⟩
    · show alo ≤ i + 1 - chainLen a b alo blo i j
      omega
    · show blo ≤ j + 1 - chainLen a b alo blo i j
      omega
    · exact absurd hlt (by
        have h0' : chainLen a b alo blo i j = 0 := h0
        omega)
    · show i + 1 - chainLen a b alo blo i j + chainLen a b alo blo i j ≤ ahi
      omega
    · show j + 1 - chainLen a b alo blo i j + chainLen a b alo blo i j ≤ bhi
      omega
  · rw [if_neg hlt]
    exact h

theorem scanRowGo_inv (a b : List String) (alo blo ahi bhi : Nat) (i : Nat) :
    ∀ cnt j (m : MatchBlock), BlockInv alo blo ahi bhi m →
      alo ≤ i → i < ahi → blo ≤ j → cnt ≤ bhi - j →
      BlockInv alo blo ahi bhi (scanRowGo a b alo blo i m j cnt) := by
  intro cnt
  induction cnt with
  | zero => intro j m h _ _ _ _; exact h
  | succ c ih =>
    intro j m h hi1 hi2 hj1 hj2
    exact ih (j + 1) _
      (scanStep_inv a b alo blo ahi bhi m i j h hi1 hi2 hj1 (by omega))
      hi1 hi2 (by omega) (by omega)

theorem scanAllGo_inv (a b : List String) (alo blo ahi bhi : Nat) :
    ∀ cnt i (m : MatchBlock), BlockInv alo blo ahi bhi m →
      alo ≤ i → cnt ≤ ahi - i →
      BlockInv alo blo ahi bhi (scanAllGo a b alo blo bhi m i cnt) := by
  intro cnt
  induction cnt with
  | zero => intro i m h _ _; exact h
  | succ c ih =>
    intro i m h hi1 hi2
    exact ih (i + 1)
      (scanRowGo a b alo blo i m blo (bhi - blo))
      (scanRowGo_inv a b alo blo ahi bhi i (bhi - blo) blo m h hi1 (by omega)
        le_rfl le_rfl)
      (by omega) (by omega)

theorem scanBest_inv (a b : List String) (alo ahi blo bhi : Nat) :
    BlockInv alo blo ahi bhi (scanBest a b alo ahi blo bhi) := by
  unfold scanBest
  exact scanAllGo_inv a b alo blo ahi bhi (ahi - alo) alo _
    ⟨le_rfl, le_rfl, fun _ => rfl, fun h => absurd rfl h, fun h => absurd rfl h⟩
    le_rfl le_rfl

theorem extendBackGo_inv (a b : List String) (alo blo ahi bhi : Nat) :
    ∀ fuel (m : MatchBlock), fuel = m.i → BlockInv alo blo ahi bhi m →
      BlockInv alo blo ahi bhi (extendBackGo a b alo blo fuel m) := by
  intro fuel
  induction fuel with
  | zero => intro m _ h; exact h
  | succ f ih =>
    intro m hf h
    by_cases hg : alo < m.i ∧ blo < m.j ∧ elemsEq a b (m.i - 1) (m.j - 1)
    · rw [extendBackGo, if_pos hg]
      have hsz : m.size ≠ 0 := by
        intro h0
        have hz : m.i = alo := by rw [h.zero h0]
        omega
      have hiu := h.iub hsz
      have hju := h.jub hsz
      have hil := h.ilb
      have hjl := h.jlb
      refine ih ⟨m.i - 1, m.j - 1, m.size + 1⟩ (show f = m.i - 1 by omega)
        ⟨?_, ?_, fun h0 => ?_, fun _ => ?_, fun _ => ?_⟩
      · show alo ≤ m.i - 1
        omega
      · show blo ≤ m.j - 1
        omega
      · exact absurd (show m.size + 1 = 0 from h0) (by omega)
      · show m.i - 1 + (m.size + 1) ≤ ahi
        omega
      · show m.j - 1 + (m.size + 1) ≤ bhi
        omega
    · rw [extendBackGo, if_neg hg]
      exact h

theorem extendBack_inv (a b : List String) (alo blo ahi bhi : Nat) :
    ∀ (m : MatchBlock), BlockInv alo blo ahi bhi m →
      BlockInv alo blo ahi bhi (extendBack a b alo blo m) :=
  fun m h => extendBackGo_inv a b alo blo ahi bhi m.i m rfl h

theorem extendFwdGo_inv (a b : List String) (ahi bhi : Nat) :
    ∀ fuel (m : MatchBlock), fuel = ahi - (m.i + m.size) →
      (m.i + m.size ≤ ahi ∨ m.size = 0) →
      (m.j + m.size ≤ bhi ∨ m.size = 0) →
      (extendFwdGo a b ahi bhi fuel m).i = m.i ∧
      (extendFwdGo a b ahi bhi fuel m).j = m.j ∧
      m.size ≤ (extendFwdGo a b ahi bhi fuel m).size ∧
      ((extendFwdGo a b ahi bhi fuel m).size ≠ 0 →
        (extendFwdGo a b ahi bhi fuel m).i + (extendFwdGo a b ahi bhi fuel m).size ≤ ahi ∧
        (extendFwdGo a b ahi bhi fuel m).j + (extendFwdGo a b ahi bhi fuel m).size ≤ bhi) := by
  intro fuel
  induction fuel with
  | zero =>
    intro m _ h1 h2
    simp only [extendFwdGo]
    refine ⟨trivial, trivial, le_rfl, fun hsz => ⟨?_, ?_⟩⟩ <;>
      rcases h1 with h1 | h1 <;> rcases h2 with h2 | h2 <;> omega
  | succ f ih =>
    intro m hf h1 h2
    by_cases hg : m.i + m.size < ahi ∧ m.j + m.size < bhi ∧
        elemsEq a b (m.i + m.size) (m.j + m.size)
    · rw [extendFwdGo, if_pos hg]
      obtain ⟨e1, e2, e3, e4⟩ := ih ⟨m.i, m.j, m.size + 1⟩
        (show f = ahi - (m.i + (m.size + 1)) by omega)
        (Or.inl (show m.i + (m.size + 1) ≤ ahi by omega))
        (Or.inl (show m.j + (m.size + 1) ≤ bhi by omega))
      refine ⟨e1, e2, ?_, e4⟩
      calc m.size ≤ m.size + 1 := by omega
      _ = MatchBlock.size ⟨m.i, m.j, m.size + 1⟩ := rfl
      _ ≤ _ := e3
    · rw [extendFwdGo, if_neg hg]
      refine ⟨rfl, rfl, le_rfl, fun hsz => ⟨?_, ?_⟩⟩ <;>
        rcases h1 with h1 | h1 <;> rcases h2 with h2 | h2 <;> omega

theorem extendFwd_inv (a b : List String) (ahi bhi : Nat) :
    ∀ (m : MatchBlock), (m.i + m.size ≤ ahi ∨ m.size = 0) →
      (m.j + m.size ≤ bhi ∨ m.size = 0) →
      (extendFwd a b ahi bhi m).i = m.i ∧ (extendFwd a b ahi bhi m).j = m.j ∧
      m.size ≤ (extendFwd a b ahi bhi m).size ∧
      ((extendFwd a b ahi bhi m).size ≠ 0 →
        (extendFwd a b ahi bhi m).i + (extendFwd a b ahi bhi m).size ≤ ahi ∧
        (extendFwd a b ahi bhi m).j + (extendFwd a b ahi bhi m).size ≤ bhi) :=
  fun m h1 h2 => extendFwdGo_inv a b ahi bhi (ahi - (m.i + m.size)) m rfl h1 h2

theorem findLongestMatch_bounds (a b : List String) (alo ahi blo bhi : Nat) :
    alo ≤ (findLongestMatch a b alo ahi blo bhi).i ∧
    blo ≤ (findLongestMatch a b alo ahi blo bhi).j ∧
    ((findLongestMatch a b alo ahi blo bhi).size ≠ 0 →
      (findLongestMatch a b alo ahi blo bhi).i +
        (findLongestMatch a b alo ahi blo bhi).size ≤ ahi ∧
      (findLongestMatch a b alo ahi blo bhi).j +
        (findLongestMatch a b alo ahi blo bhi).size ≤ bhi) := by
  unfold findLongestMatch
  have h1 := scanBest_inv a b alo ahi blo bhi
  have h2 := extendBack_inv a b alo blo ahi bhi _ h1
  have h3 := extendFwd_inv a b ahi bhi
    (extendBack a b alo blo (scanBest a b alo ahi blo bhi))
    (by rcases Nat.eq_zero_or_pos
          (extendBack a b alo blo (scanBest a b alo ahi blo bhi)).size with h | h
        · exact Or.inr h
        · exact Or.inl (h2.iub (by omega)))
    (by rcases Nat.eq_zero_or_pos
          (extendBack a b alo blo (scanBest a b alo ahi blo bhi)).size with h | h
        · exact Or.inr h
        · exact Or.inl (h2.jub (by omega)))
  obtain ⟨e1, e2, e3, e4⟩ := h3
  exact ⟨by rw [e1]; exact h2.ilb, by rw [e2]; exact h2.jlb, e4⟩

/-- The recursive core of `SequenceMatcher.get_matching_blocks`: the source
uses an explicit queue and sorts the collected blocks at the end, which
yields exactly this in-order recursion (left sub-range, found block, right
sub-range).  By `findLongestMatch_bounds` both sub-ranges are strictly
shorter on the `a` side, so `ahi - alo` is sufficient structural fuel. -/
def matchingBlocksGo (a b : List String) :
    Nat → Nat → Nat → Nat → Nat → List MatchBlock
  | 0, _, _, _, _ => []
  | fuel + 1, alo, ahi, blo, bhi =>
      if (findLongestMatch a b alo ahi blo bhi).size = 0 then []
      else
        (if alo < (findLongestMatch a b alo ahi blo bhi).i ∧
            blo < (findLongestMatch a b alo ahi blo bhi).j then
          matchingBlocksGo a b fuel alo (findLongestMatch a b alo ahi blo bhi).i
            blo (findLongestMatch a b alo ahi blo bhi).j
         else []) ++
        [findLongestMatch a b alo ahi blo bhi] ++
        (if (findLongestMatch a b alo ahi blo bhi).i +
              (findLongestMatch a b alo ahi blo bhi).size < ahi ∧
            (findLongestMatch a b alo ahi blo bhi).j +
              (findLongestMatch a b alo ahi blo bhi).size < bhi then
          matchingBlocksGo a b fuel
            ((findLongestMatch a b alo ahi blo bhi).i +
              (findLongestMatch a b alo ahi blo bhi).size) ahi
            ((findLongestMatch a b alo ahi blo bhi).j +
              (findLongestMatch a b alo ahi blo bhi).size) bhi
         else [])

def matchingBlocksRec (a b : List String) (alo ahi blo bhi : Nat) :
    List MatchBlock :=
  matchingBlocksGo a b (ahi - alo) alo ahi blo bhi

/-- The adjacent-block merging loop of `get_matching_blocks`
(`i1, j1, k1` accumulator, starting from `(0, 0, 0)`). -/
def mergeBlocks : List MatchBlock → MatchBlock → List MatchBlock
  | [], cur => if cur.size ≠ 0 then [cur] else []
  | m :: rest, cur =>
      if cur.i + cur.size = m.i ∧ cur.j + cur.size = m.j then
        mergeBlocks rest ⟨cur.i, cur.j, cur.size + m.size⟩
      else
        (if cur.size ≠ 0 then [cur] else []) ++ mergeBlocks rest m

/-- `SequenceMatcher.get_matching_blocks()` (merged non-adjacent blocks plus
the `(len(a), len(b), 0)` sentinel). -/
def getMatchingBlocks (a b : List String) : List MatchBlock :=
  mergeBlocks (matchingBlocksRec a b 0 a.length 0 b.length) ⟨0, 0, 0⟩ ++
    [⟨a.length, b.length, 0⟩]

/-- Opcode tags of `SequenceMatcher.get_opcodes()`. -/
inductive Tag where
  | replace
  | delete
  | insert
  | equal
deriving DecidableEq, Repr, Inhabited

structure Opcode where
  tag : Tag
  a1 : Nat
  a2 : Nat
  b1 : Nat
  b2 : Nat
deriving DecidableEq, Repr, Inhabited

/-- The loop body of `get_opcodes()`, threading the `(i, j)` cursor. -/
def opcodesAux : Nat → Nat → List MatchBlock → List Opcode
  | _, _, [] => []
  | i, j, m :: rest =>
      (if i < m.i ∧ j < m.j then [⟨Tag.replace, i, m.i, j, m.j⟩]
       else if i < m.i then [⟨Tag.delete, i, m.i, j, m.j⟩]
       else if j < m.j then [⟨Tag.insert, i, m.i, j, m.j⟩]
       else []) ++
      (if m.size ≠ 0 then
        [⟨Tag.equal, m.i, m.i + m.size, m.j, m.j + m.size⟩]
       else []) ++
      opcodesAux (m.i + m.size) (m.j + m.size) rest

/-- `SequenceMatcher.get_opcodes()`. -/
def getOpcodes (a b : List String) : List Opcode :=
  opcodesAux 0 0 (getMatchingBlocks a b)

/-- Fix-up of the leading opcode in `get_grouped_opcodes`: a leading equal
run is truncated to at most `n` lines of context. -/
def fixupFirst (n : Nat) : List Opcode → List Opcode
  | [] => []
  | c :: rest =>
      if c.tag = Tag.equal then
        ⟨Tag.equal, max c.a1 (c.a2 - n), c.a2, max c.b1 (c.b2 - n), c.b2⟩ :: rest
      else c :: rest

/-- Fix-up of the trailing opcode in `get_grouped_opcodes`. -/
def fixupLast (n : Nat) (codes : List Opcode) : List Opcode :=
  match codes.getLast? with
  | none => codes
  | some c =>
      if c.tag = Tag.equal then
        codes.dropLast ++
          [⟨Tag.equal, c.a1, min c.a2 (c.a1 + n), c.b1, min c.b2 (c.b1 + n)⟩]
      else codes

/-- The grouping loop of `get_grouped_opcodes(n)`: a group is emitted
whenever an equal run longer than `2n` is encountered (split with `n` lines
of context on each side), and the final group is emitted unless it is a
single equal opcode. -/
def groupedAux (n : Nat) : List Opcode → List Opcode → List (List Opcode)
  | group, [] =>
      if group ≠ [] ∧ ¬(group.length = 1 ∧ (group.head?.map Opcode.tag) = some Tag.equal)
      then [group] else []
  | group, op :: rest =>
      if op.tag = Tag.equal ∧ n + n < op.a2 - op.a1 then
        (group ++ [⟨Tag.equal, op.a1, min op.a2 (op.a1 + n), op.b1, min op.b2 (op.b1 + n)⟩]) ::
          groupedAux n
            [⟨Tag.equal, max op.a1 (op.a2 - n), op.a2, max op.b1 (op.b2 - n), op.b2⟩]
            rest
      else groupedAux n (group ++ [op]) rest

/-- `SequenceMatcher.get_grouped_opcodes(n)`. -/
def getGroupedOpcodes (n : Nat) (a b : List String) : List (List Opcode) :=
  let codes0 := getOpcodes a b
  let codes1 := if codes0 = [] then [⟨Tag.equal, 0, 1, 0, 1⟩] else codes0
  groupedAux n [] (fixupLast n (fixupFirst n codes1))

/-- `difflib._format_range_unified`. -/
def formatRangeUnified (start stop : Nat) : String :=
  let beginning := start + 1
  let length := stop - start
  if length = 1 then toString beginning
  else toString (if length = 0 then beginning - 1 else beginning) ++ "," ++
    toString length

/-- `l[i:j]` on lists. -/
def sliceList (l : List α) (i j : Nat) : List α := (l.drop i).take (j - i)

/-- The per-opcode line rendering of `difflib.unified_diff`. -/
def opLines (a b : List String) (op : Opcode) : List String :=
  match op.tag with
  | Tag.equal => (sliceList a op.a1 op.a2).map (fun l => " " ++ l)
  | Tag.delete => (sliceList a op.a1 op.a2).map (fun l => "-" ++ l)
  | Tag.insert => (sliceList b op.b1 op.b2).map (fun l => "+" ++ l)
  | Tag.replace =>
      (sliceList a op.a1 op.a2).map (fun l => "-" ++ l) ++
      (sliceList b op.b1 op.b2).map (fun l => "+" ++ l)

/-- One rendered hunk of `difflib.unified_diff`. -/
def renderGroup (a b : List String) (g : List Opcode) : List String :=
  let first := g.headD default
  let last := g.getLastD default
  ("@@ -" ++ formatRangeUnified first.a1 last.a2 ++
   " +" ++ formatRangeUnified first.b1 last.b2 ++ " @@\n") ::
  (g.map (opLines a b)).flatten

/-- `difflib.unified_diff(a, b, fromfile, tofile, n=n)` with empty
`fromfiledate`/`tofiledate` and the default `lineterm="\n"`, returned as the
list of yielded lines (`---`/`+++` headers only when at least one group is
produced). -/
def difflibUnifiedDiff (a b : List String) (fromfile tofile : String) (n : Nat) :
    List String :=
  let groups := getGroupedOpcodes n a b
  (if groups = [] then []
   else ["--- " ++ fromfile ++ "\n", "+++ " ++ tofile ++ "\n"]) ++
  (groups.map (renderGroup a b)).flatten

/-! ### `diff_shades.utils` -/

/-- The incomplete-line workaround in `diff_shades.utils.unified_diff`:
any yielded line not ending in a newline gets one appended, followed by the
`\ No newline at end of file` marker line. -/
def fixLine (line : String) : List String :=
  if strEndsWith line "\n" then [line]
  else [line ++ "\n", "\\ No newline at end of file\n"]

/-- `diff_shades.utils.unified_diff(a, b, a_name, b_name)`: a unified diff
between `a` and `b` with a 5-line context window and incomplete-line
markers, joined into a single string. -/
def unified_diff (a b a_name b_name : String) : String :=
  String.join
    (((difflibUnifiedDiff (splitlinesKeepends a) (splitlinesKeepends b)
        a_name b_name 5).map fixLine).flatten)

/-- `diff_shades.utils.calculate_line_changes(diff)`: the `(additions,
deletions)` counts of a diff.  The source tests `line[0] == "+"` /
`line[0] == "-"` on the non-empty lines of the diff; `startsWith` agrees on
every line a unified diff produces (all non-empty). -/
def calculate_line_changes (diff : String) : Nat × Nat :=
  (splitlines diff).foldl
    (fun acc line =>
      if strStartsWith line "+" ∧ ¬strStartsWith line "+++" then (acc.1 + 1, acc.2)
      else if strStartsWith line "-" ∧ ¬strStartsWith line "---" then (acc.1, acc.2 + 1)
      else acc)
    (0, 0)

/-! ### `diff_shades.results`: the FileResult variants

Each frozen dataclass is modelled as a structure holding exactly its
(non-`init=False`) fields, plus an `init` function modelling
`__init__` + `__post_init__` (with the Python defaults `line_count=-1`,
`line_changes=(-1, -1)`, `log=None` supplied explicitly at call sites). -/

/-- `src.count("\n")`. -/
def countNewlines (s : String) : Nat := s.data.count '\n'

/-- `_convert_line_count`: replace a `-1` line count by
`max(1, src.count("\n"))`. -/
def convert_line_count (src : String) (line_count : Int) : Int :=
  if line_count = -1 then ((max 1 (countNewlines src) : Nat) : Int) else line_count

/-- The three values of the `type` tag (`ResultTypes`). -/
inductive RType where
  | nothingChanged
  | reformatted
  | failed
deriving DecidableEq, Repr

/-- The JSON string spelling of a result type tag. -/
def RType.toStr : RType → String
  | .nothingChanged => "nothing-changed"
  | .reformatted => "reformatted"
  | .failed => "failed"

structure NothingChangedResult where
  src : String
  line_count : Int
deriving DecidableEq, Repr

structure ReformattedResult where
  src : String
  dst : String
  line_count : Int
  line_changes : Int × Int
deriving DecidableEq, Repr

structure FailedResult where
  src : String
  error : String
  message : String
  log : Option String
  line_count : Int
deriving DecidableEq, Repr

/-- `NothingChangedResult(src, line_count)` (with `__post_init__`). -/
def NothingChangedResult.init (src : String) (line_count : Int) :
    NothingChangedResult :=
  ⟨src, convert_line_count src line_count⟩

/-- `ReformattedResult.diff(filepath)`. -/
def ReformattedResult.diffWith (src dst filepath : String) : String :=
  unified_diff src dst ("a/" ++ filepath) ("b/" ++ filepath)

/-- `ReformattedResult(src, dst, line_count, line_changes)` (with
`__post_init__`: a `(-1, -1)` line-changes pair is recomputed from the
unified diff of `src` and `dst`). -/
def ReformattedResult.init (src dst : String) (line_count : Int)
    (line_changes : Int × Int) : ReformattedResult :=
  if line_changes = (-1, -1) then
    ⟨src, dst, convert_line_count src line_count,
      (((calculate_line_changes (ReformattedResult.diffWith src dst "throw-away-name")).1 : Int),
       ((calculate_line_changes (ReformattedResult.diffWith src dst "throw-away-name")).2 : Int))⟩
  else ⟨src, dst, convert_line_count src line_count, line_changes⟩

/-- `FailedResult(src, error, message, log, line_count)` (with
`__post_init__`). -/
def FailedResult.init (src error message : String) (log : Option String)
    (line_count : Int) : FailedResult :=
  ⟨src, error, message, log, convert_line_count src line_count⟩

/-- `FileResult = Union[FailedResult, ReformattedResult, NothingChangedResult]`. -/
inductive FileResult where
  | nothingChanged : NothingChangedResult → FileResult
  | reformatted : ReformattedResult → FileResult
  | failed : FailedResult → FileResult
deriving DecidableEq, Repr

/-- The `type` tag of a result. -/
def FileResult.rtype : FileResult → RType
  | .nothingChanged _ => RType.nothingChanged
  | .reformatted _ => RType.reformatted
  | .failed _ => RType.failed

def FileResult.src : FileResult → String
  | .nothingChanged r => r.src
  | .reformatted r => r.src
  | .failed r => r.src

def FileResult.line_count : FileResult → Int
  | .nothingChanged r => r.line_count
  | .reformatted r => r.line_count
  | .failed r => r.line_count

/-- The `line_changes` property: `(0, 0)` for nothing-changed and failed
results, the stored pair for reformatted results. -/
def FileResult.line_changes : FileResult → Int × Int
  | .nothingChanged _ => (0, 0)
  | .reformatted r => r.line_changes
  | .failed _ => (0, 0)

/-- `ProjectResults`: an insertion-ordered mapping from relative file path
to `FileResult`. -/
abbrev ProjectResults := List (String × FileResult)

/-- `ProjectResults.line_count`. -/
def projectLineCount (r : ProjectResults) : Int :=
  (r.map (fun p => p.2.line_count)).sum

/-- `diff_shades.config.Project`. -/
structure Project where
  name : String
  url : String
  custom_arguments : List String
  python_requires : Option String
  commit : Option String
deriving DecidableEq, Repr

/-! ### `diff_shades.results.diff_two_results` and `get_overall_result` -/

/-- `diff_two_results(r1, r2, file, diff_failure)`.  Raising is modelled by
`Except.error`. -/
def diff_two_results (r1 r2 : FileResult) (file : String) (diff_failure : Bool) :
    Except String String :=
  if r1.rtype = RType.failed ∨ r2.rtype = RType.failed then
    if ¬diff_failure then Except.error "Cannot diff failing file results."
    else
      Except.ok (unified_diff
        (match r1 with
         | .failed f => "[" ++ f.error ++ ": " ++ f.message ++ "]\n"
         | _ => "[no crash]\n")
        (match r2 with
         | .failed f => "[" ++ f.error ++ ": " ++ f.message ++ "]\n"
         | _ => "[no crash]\n")
        ("a/" ++ file) ("b/" ++ file))
  else
    Except.ok (unified_diff
      (match r1 with
       | .reformatted r => r.dst
       | _ => r1.src)
      (match r2 with
       | .reformatted r => r.dst
       | _ => r2.src)
      ("a/" ++ file) ("b/" ++ file))

/-- `get_overall_result(results)`: `failed` wins over `reformatted` wins
over `nothing-changed`; the final `assert result_types == {"nothing-changed"}`
(which fails exactly on an empty group once the first two cases are ruled
out) is modelled by `Except.error`. -/
def get_overall_result (results : List FileResult) : Except String RType :=
  let result_types := results.map FileResult.rtype
  if result_types.contains RType.failed then Except.ok RType.failed
  else if result_types.contains RType.reformatted then Except.ok RType.reformatted
  else if result_types.all (fun t => t == RType.nothingChanged) ∧ ¬result_types.isEmpty
  then Except.ok RType.nothingChanged
  else Except.error "AssertionError"

/-! ### `diff_shades.results`: persistence (`save_analysis` /
`load_analysis_contents`)

`json.dumps(..., ensure_ascii=True)` followed by `json.loads` is a faithful
round trip at the level of JSON values (tuples become arrays; non-ASCII
characters are escaped on the way out and unescaped on the way in), so the
persisted document is modelled as a JSON value tree; the ASCII escaping of
string payloads is modelled separately below. -/

inductive JSON where
  | null
  | bool : Bool → JSON
  | num : ℚ → JSON
  | str : String → JSON
  | arr : List JSON → JSON
  | obj : List (String × JSON) → JSON

structure Analysis where
  projects : List (String × Project)
  results : List (String × ProjectResults)
  metadata : List (String × JSON)

def optStrJson : Option String → JSON
  | none => JSON.null
  | some s => JSON.str s

/-- `dataclasses.asdict` on a `Project` (fields in declaration order). -/
def Project.asdict (p : Project) : JSON :=
  JSON.obj [("name", JSON.str p.name), ("url", JSON.str p.url),
    ("custom_arguments", JSON.arr (p.custom_arguments.map JSON.str)),
    ("python_requires", optStrJson p.python_requires),
    ("commit", optStrJson p.commit)]

/-- `dataclasses.asdict` on a `FileResult` (fields in declaration order,
`type` tag included). -/
def FileResult.asdict : FileResult → JSON
  | .nothingChanged r =>
      JSON.obj [("type", JSON.str "nothing-changed"), ("src", JSON.str r.src),
        ("line_count", JSON.num r.line_count)]
  | .reformatted r =>
      JSON.obj [("type", JSON.str "reformatted"), ("src", JSON.str r.src),
        ("dst", JSON.str r.dst), ("line_count", JSON.num r.line_count),
        ("line_changes", JSON.arr [JSON.num r.line_changes.1, JSON.num r.line_changes.2])]
  | .failed r =>
      JSON.obj [("type", JSON.str "failed"), ("src", JSON.str r.src),
        ("error", JSON.str r.error), ("message", JSON.str r.message),
        ("log", optStrJson r.log), ("line_count", JSON.num r.line_count)]

/-- The document written by `save_analysis`: `asdict(analysis)` serialized
to JSON. -/
def save_analysis_contents (a : Analysis) : JSON :=
  JSON.obj
    [("projects", JSON.obj (a.projects.map (fun p => (p.1, p.2.asdict)))),
     ("results", JSON.obj (a.results.map (fun pr =>
        (pr.1, JSON.obj (pr.2.map (fun f => (f.1, f.2.asdict))))))),
     ("metadata", JSON.obj a.metadata)]

/-- `save_analysis` on a `.zip` path: a single-member archive holding the
JSON document under the fixed name `analysis.json`. -/
def save_analysis_zip (a : Analysis) : List (String × JSON) :=
  [("analysis.json", save_analysis_contents a)]

def JSON.getObj : JSON → Except String (List (String × JSON))
  | .obj kvs => Except.ok kvs
  | _ => Except.error "TypeError: not a dict"

def JSON.getStr : JSON → Except String String
  | .str s => Except.ok s
  | _ => Except.error "TypeError: not a str"

/-- Read an `int`-valued field (a JSON number with denominator 1). -/
def JSON.getInt : JSON → Except String Int
  | .num q => if q.den = 1 then Except.ok q.num else Except.error "TypeError: not an int"
  | _ => Except.error "TypeError: not an int"

def JSON.getOptStr : JSON → Except String (Option String)
  | .null => Except.ok none
  | .str s => Except.ok (some s)
  | _ => Except.error "TypeError: not an optional str"

def JSON.getStrList : JSON → Except String (List String)
  | .arr l => l.mapM JSON.getStr
  | _ => Except.error "TypeError: not a list of str"

def reqStr (kvs : List (String × JSON)) (k : String) : Except String String :=
  match kvs.lookup k with
  | some v => v.getStr
  | none => Except.error ("TypeError: missing required argument " ++ k)

def optIntD (kvs : List (String × JSON)) (k : String) (d : Int) :
    Except String Int :=
  match kvs.lookup k with
  | some v => v.getInt
  | none => Except.ok d

def optOptStr (kvs : List (String × JSON)) (k : String) :
    Except String (Option String) :=
  match kvs.lookup k with
  | some v => v.getOptStr
  | none => Except.ok none

/-- `tuple(r["line_changes"])` with default `(-1, -1)` when absent. -/
def optPairD (kvs : List (String × JSON)) (k : String) (d : Int × Int) :
    Except String (Int × Int) :=
  match kvs.lookup k with
  | some (JSON.arr [x, y]) => do
      let xv ← x.getInt
      let yv ← y.getInt
      Except.ok (xv, yv)
  | some _ => Except.error "TypeError: not a pair"
  | none => Except.ok d

/-- `cls(**r)` rejects unexpected keyword arguments. -/
def keysSubset (kvs : List (String × JSON)) (allowed : List String) : Bool :=
  kvs.all (fun p => allowed.contains p.1)

/-- `_parse_file_result` in `load_analysis_contents`: pop the `type` tag,
dispatch on it, convert `line_changes` to a tuple, and invoke the dataclass
constructor (running `__post_init__`).  An unknown tag leaves `cls` unbound
(`UnboundLocalError`). -/
def parse_file_result (j : JSON) : Except String FileResult := do
  let fields ← j.getObj
  let tj ← match fields.lookup "type" with
    | some t => Except.ok t
    | none => Except.error "KeyError: type"
  let rest := fields.filter (fun p => p.1 ≠ "type")
  let rtype ← tj.getStr
  if rtype = "reformatted" then do
    let src ← reqStr rest "src"
    let dst ← reqStr rest "dst"
    let lc ← optIntD rest "line_count" (-1)
    let lch ← optPairD rest "line_changes" (-1, -1)
    if keysSubset rest ["src", "dst", "line_count", "line_changes"] then
      Except.ok (FileResult.reformatted (ReformattedResult.init src dst lc lch))
    else Except.error "TypeError: unexpected keyword argument"
  else if rtype = "nothing-changed" then do
    let src ← reqStr rest "src"
    let lc ← optIntD rest "line_count" (-1)
    if keysSubset rest ["src", "line_count"] then
      Except.ok (FileResult.nothingChanged (NothingChangedResult.init src lc))
    else Except.error "TypeError: unexpected keyword argument"
  else if rtype = "failed" then do
    let src ← reqStr rest "src"
    let err ← reqStr rest "error"
    let msg ← reqStr rest "message"
    let log ← optOptStr rest "log"
    let lc ← optIntD rest "line_count" (-1)
    if keysSubset rest ["src", "error", "message", "log", "line_count"] then
      Except.ok (FileResult.failed (FailedResult.init src err msg log lc))
    else Except.error "TypeError: unexpected keyword argument"
  else Except.error "UnboundLocalError: cls"

/-- `Project(**config)`. -/
def parse_project (j : JSON) : Except String Project := do
  let kvs ← j.getObj
  let name ← reqStr kvs "name"
  let url ← reqStr kvs "url"
  let ca ← match kvs.lookup "custom_arguments" with
    | some v => v.getStrList
    | none => Except.ok []
  let pr ← optOptStr kvs "python_requires"
  let cm ← optOptStr kvs "commit"
  if keysSubset kvs ["name", "url", "custom_arguments", "python_requires", "commit"] then
    Except.ok ⟨name, url, ca, pr, cm⟩
  else Except.error "TypeError: unexpected keyword argument"

/-- `k.replace("_", "-")` (a single-character replacement, so a character
map). -/
def hyphenate (s : String) : String :=
  String.mk (s.data.map (fun c => if c = '_' then '-' else c))

def getKey (kvs : List (String × JSON)) (k : String) : Except String JSON :=
  match kvs.lookup k with
  | some v => Except.ok v
  | none => Except.error ("KeyError: " ++ k)

/-- `load_analysis_contents(data)`: parse the projects, hyphenate the
metadata keys, check that `data-format` satisfies `1 <= data_format < 2`
(a missing or non-numeric value raises a `TypeError` on the comparison,
an out-of-range one raises `ValueError`), then parse the results. -/
def parse_named_results (files : List (String × JSON)) :
    Except String ProjectResults :=
  files.mapM (fun f => do
    let r ← parse_file_result f.2
    Except.ok (f.1, r))

def load_analysis_contents (data : JSON) : Except String Analysis :=
  match data.getObj with
  | Except.error e => Except.error e
  | Except.ok root =>
  match getKey root "projects" with
  | Except.error e => Except.error e
  | Except.ok projectsJ =>
  match projectsJ.getObj with
  | Except.error e => Except.error e
  | Except.ok pobj =>
  match pobj.mapM (fun p => do
      let proj ← parse_project p.2
      Except.ok (p.1, proj)) with
  | Except.error e => Except.error e
  | Except.ok projects =>
  match getKey root "metadata" with
  | Except.error e => Except.error e
  | Except.ok metadataJ =>
  match metadataJ.getObj with
  | Except.error e => Except.error e
  | Except.ok mobj =>
  let metadata := mobj.map (fun p => (hyphenate p.1, p.2))
  match metadata.lookup "data-format" with
  | none => Except.error "TypeError: data-format is None"
  | some (JSON.num q) =>
      if ¬(1 ≤ q ∧ q < 2) then
        Except.error "ValueError: unsupported analysis format"
      else
        match getKey root "results" with
        | Except.error e => Except.error e
        | Except.ok resultsJ =>
        match resultsJ.getObj with
        | Except.error e => Except.error e
        | Except.ok robj =>
        match robj.mapM (fun pr => do
            let files ← pr.2.getObj
            let parsed ← parse_named_results files
            Except.ok (pr.1, parsed)) with
        | Except.error e => Except.error e
        | Except.ok results => Except.ok ⟨projects, results, metadata⟩
  | some _ => Except.error "TypeError: data-format is not a number"

/-- The `.zip` branch of `load_analysis`: an empty archive raises
(`entries[0]` out of range), an archive with more than one member raises a
`DSError`, and otherwise the single member is loaded. -/
def load_analysis_zip (entries : List (String × JSON)) : Except String Analysis :=
  match entries with
  | [] => Except.error "IndexError: no members"
  | [e] => load_analysis_contents e.2
  | _ => Except.error "DSError: contains more than one member"

/-! ### `diff_shades.results.clear_cache` -/

def CACHE_MAX_ENTRIES : Nat := 5

def CACHE_LAST_ACCESS_CUTOFF : ℚ := 60 * 60 * 24 * 5

/-- Order cache entries by last-access time (the `key=lambda x: x[1]` sort). -/
def atimeLE (x y : String × ℚ) : Prop := x.2 ≤ y.2

instance : DecidableRel atimeLE := fun x y => inferInstanceAs (Decidable (x.2 ≤ y.2))

instance : IsTotal (String × ℚ) atimeLE := ⟨fun x y => le_total x.2 y.2⟩

instance : IsTrans (String × ℚ) atimeLE := ⟨fun _ _ _ h1 h2 => le_trans h1 h2⟩

/-- The `while len(by_oldest) > CACHE_MAX_ENTRIES - int(ensure_room)` loop:
drop entries from the front (the least recently accessed) until at most
`bound` remain. -/
def evictLoop (bound : Nat) : List (String × ℚ) → List (String × ℚ)
  | [] => []
  | x :: xs => if bound < (x :: xs).length then evictLoop bound xs else x :: xs

/-- `clear_cache(ensure_room=...)` as a function from the cache directory
contents (entry name, last-access time) and the current time to the
surviving entries: sort by last access, evict from the oldest end down to
the size bound, then drop entries older than the age cutoff. -/
def clear_cache (entries : List (String × ℚ)) (now : ℚ) (ensure_room : Bool) :
    List (String × ℚ) :=
  let by_oldest := List.insertionSort atimeLE entries
  let kept := evictLoop (CACHE_MAX_ENTRIES - (if ensure_room then 1 else 0)) by_oldest
  kept.filter (fun e => ¬(CACHE_LAST_ACCESS_CUTOFF < now - e.2))

/-- The entries the size-bound phase of `clear_cache` deletes (the front of
the sorted-by-age list). -/
def clear_cache_evicted (entries : List (String × ℚ)) (ensure_room : Bool) :
    List (String × ℚ) :=
  let by_oldest := List.insertionSort atimeLE entries
  by_oldest.take
    (by_oldest.length - (CACHE_MAX_ENTRIES - (if ensure_room then 1 else 0)))

/-! ### `diff_shades.analysis`: the parallel analysis engine

Paths are modelled as POSIX path strings.  The external formatter's
per-file check (`black.format_file_contents` inside `check_file`) is an
opaque collaborator, modelled as a parameter `f : String → FileResult`. -/

/-- `PurePath.name`: the final path component (the characters after the
last `/`). -/
def pathName (p : String) : String :=
  String.mk ((p.data.reverse.takeWhile (fun c => c ≠ '/')).reverse)

/-- Index of the last `.` in a component (`str.rfind(".")`, `none` when
absent). -/
def rfindDot (name : List Char) : Option Nat :=
  match name.reverse.findIdx? (fun c => c == '.') with
  | some k => some (name.length - 1 - k)
  | none => none

/-- `PurePath.suffix`: the extension of the final component including the
dot, or `""` (also for names that start with their only dot). -/
def pathSuffix (p : String) : String :=
  let name := pathName p
  match rfindDot name.data with
  | some i => if 0 < i ∧ i < strLen name - 1 then strDrop name i else ""
  | none => ""

/-- Lexicographic code-point comparison of strings (Python `x <= y`,
which is how `sorted` orders `Path`s via their string form). -/
def charsLE : List Char → List Char → Bool
  | [], _ => true
  | _ :: _, [] => false
  | c :: cs, d :: ds =>
      if c.toNat < d.toNat then true
      else if d.toNat < c.toNat then false
      else charsLE cs ds

def strLE (x y : String) : Prop := charsLE x.data y.data = true

instance : DecidableRel strLE :=
  fun x y => inferInstanceAs (Decidable (charsLE x.data y.data = true))

theorem charsLE_total : ∀ xs ys : List Char,
    charsLE xs ys = true ∨ charsLE ys xs = true := by
  intro xs
  induction xs with
  | nil => intro ys; left; rfl
  | cons c cs ih =>
    intro ys
    cases ys with
    | nil => right; rfl
    | cons d ds =>
      by_cases h1 : c.toNat < d.toNat
      · left
        simp [charsLE, h1]
      · by_cases h2 : d.toNat < c.toNat
        · right
          simp [charsLE, h2]
        · rcases ih ds with h | h
          · left
            simp [charsLE, h1, h2, h]
          · right
            simp [charsLE, h1, h2, h]

theorem charsLE_trans : ∀ xs ys zs : List Char,
    charsLE xs ys = true → charsLE ys zs = true → charsLE xs zs = true := by
  intro xs
  induction xs with
  | nil => intro ys zs _ _; rfl
  | cons c cs ih =>
    intro ys zs h1 h2
    cases ys with
    | nil => exact absurd h1 (by simp [charsLE])
    | cons d ds =>
      cases zs with
      | nil => exact absurd h2 (by simp [charsLE])
      | cons e es =>
        simp only [charsLE] at h1 h2 ⊢
        by_cases hcd : c.toNat < d.toNat
        · by_cases hde : d.toNat < e.toNat
          · rw [if_pos (show c.toNat < e.toNat by omega)]
          · rw [if_neg hde] at h2
            by_cases hed : e.toNat < d.toNat
            · rw [if_pos hed] at h2
              exact absurd h2 (by simp)
            · rw [if_pos (show c.toNat < e.toNat by omega)]
        · rw [if_neg hcd] at h1
          by_cases hdc : d.toNat < c.toNat
          · rw [if_pos hdc] at h1
            exact absurd h1 (by simp)
          · rw [if_neg hdc] at h1
            by_cases hde : d.toNat < e.toNat
            · rw [if_pos (show c.toNat < e.toNat by omega)]
            · rw [if_neg hde] at h2
              by_cases hed : e.toNat < d.toNat
              · rw [if_pos hed] at h2
                exact absurd h2 (by simp)
              · rw [if_neg hed] at h2
                rw [if_neg (show ¬c.toNat < e.toNat by omega),
                  if_neg (show ¬e.toNat < c.toNat by omega)]
                exact ih ds es h1 h2

instance : IsTotal String strLE := ⟨fun x y => charsLE_total x.data y.data⟩

instance : IsTrans String strLE :=
  ⟨fun x y z h1 h2 => charsLE_trans x.data y.data z.data h1 h2⟩

/-- The file-list half of `get_project_files_and_mode`: `black.main`'s
discovery yields `discovered`; an empty probe trips the
`assert files and isinstance(mode, black.FileMode)` guard; otherwise the
`.py`/`.pyi` files are returned sorted (Python sorts `Path`s by their
string form).  The captured `black.FileMode` is opaque to every claim and
is not modelled. -/
def get_project_files (discovered : List String) : Except String (List String) :=
  if discovered.isEmpty then Except.error "AssertionError: files and mode"
  else Except.ok (List.insertionSort strLE
    (discovered.filter (fun p => pathSuffix p = ".py" ∨ pathSuffix p = ".pyi")))

/-- `file.relative_to(project_path).as_posix()` for a file under the
project root. -/
def relPosix (root file : String) : String :=
  if strStartsWith file (root ++ "/") then strDrop file (strLen root + 1) else file

/-- `check_file_shim((file, project_path, mode))`: run the checker and pair
the result with the root-relative POSIX path. -/
def check_file_shim (f : String → FileResult) (project_path file : String) :
    String × FileResult :=
  (relPosix project_path file, f file)

/-- The completion stream of the worker pool: the dispatched tasks finish
in an arbitrary `arrival` order (a permutation of the task indices), each
completion carrying its task index and result. -/
def poolCompletions (g : α → β) (tasks : List α) (arrival : List Nat) :
    List (Nat × β) :=
  arrival.filterMap (fun i => (tasks[i]?).map (fun t => (i, g t)))

/-- `pool.imap(g, tasks)`: results are yielded in task submission order
regardless of the completion order — task `i`'s result is emitted at
position `i` once available. -/
def poolImap (g : α → β) (tasks : List α) (arrival : List Nat) : List β :=
  (List.range tasks.length).filterMap
    (fun i => (poolCompletions g tasks arrival).lookup i)

/-- `dict[key] = value` on an insertion-ordered mapping: overwrite in place
when the key exists, append otherwise. -/
def dictInsert (d : List (String × β)) (k : String) (v : β) :
    List (String × β) :=
  if d.any (fun p => p.1 == k) then
    d.map (fun p => if p.1 == k then (k, v) else p)
  else d ++ [(k, v)]

/-- Build an insertion-ordered dict from a stream of key/value pairs. -/
def buildDict (l : List (String × β)) : List (String × β) :=
  l.foldl (fun d p => dictInsert d p.1 p.2) []

/-- `check_project_files(files, project_path, mode=mode)`: dispatch one
packet per file through `pool.imap(check_file_shim, data_packets)` and
collect `file_results[filepath] = result` in arrival-of-yield order. -/
def check_project_files (f : String → FileResult) (project_path : String)
    (files : List String) (arrival : List Nat) : ProjectResults :=
  buildDict (poolImap (fun fp => check_file_shim f project_path fp) files arrival)

/-! ### The comparison engine (`make_comparison_summary`,
`cli.compare_project_pair`) -/

/-- Python `dict` equality (order-insensitive, key/value pointwise). -/
def dictEqb (r1 r2 : ProjectResults) : Bool :=
  decide (r1.length = r2.length) &&
    r1.all (fun p => decide (r2.lookup p.1 = some p.2))

/-- One iteration of the `for file, r1 in results.items()` loop of
`cli.compare_project_pair`: `r2 = results2[file]` (a `KeyError` when
absent), then a rendered diff (with `diff_failure=True`) when the two
results differ. -/
def comparePairStep (project_name : String) (results2 : ProjectResults)
    (acc : Bool × List String) (p : String × FileResult) :
    Except String (Bool × List String) :=
  match results2.lookup p.1 with
  | none => Except.error ("KeyError: " ++ p.1)
  | some r2 =>
      if p.2 ≠ r2 then do
        let d ← diff_two_results p.2 r2 (project_name ++ ":" ++ p.1) true
        Except.ok (true, acc.2 ++ [d])
      else Except.ok acc

/-- `cli.compare_project_pair(project, results, results2)`: walk the first
mapping, look each file up in the second unconditionally, and render a
diff for every differing pair.  Returns `found_difference` and the printed
diffs. -/
def compare_project_pair (project_name : String)
    (results results2 : ProjectResults) : Except String (Bool × List String) :=
  results.foldlM (comparePairStep project_name results2) (false, [])

structure ComparisonStats where
  lines : Int
  files : Nat
  differing_projects : Nat
  differing_files : Nat
  additions : Nat
  deletions : Nat
deriving DecidableEq, Repr

/-- One iteration of the inner `for file, r1 in results_one.items()` loop
of `make_comparison_summary`: `r2 = results_two[file]` (a `KeyError` when
absent); a differing non-crash pair also contributes its line changes. -/
def summaryFileStep (results2 : ProjectResults) (st : ComparisonStats)
    (p : String × FileResult) : Except String ComparisonStats :=
  match results2.lookup p.1 with
  | none => Except.error ("KeyError: " ++ p.1)
  | some r2 =>
      if p.2 ≠ r2 then
        if ¬(p.2.rtype = RType.failed ∨ r2.rtype = RType.failed) then do
          let d ← diff_two_results p.2 r2 "throwaway" false
          let ch := calculate_line_changes d
          Except.ok { st with
            differing_files := st.differing_files + 1,
            additions := st.additions + ch.1,
            deletions := st.deletions + ch.2 }
        else
          Except.ok { st with differing_files := st.differing_files + 1 }
      else Except.ok st

/-- One iteration of the outer `for results_one, results_two in
project_pairs` loop of `make_comparison_summary`: pairs that are
(dict-)equal are skipped; a differing pair is counted and its files are
compared one by one. -/
def summaryPairStep (stats : ComparisonStats)
    (pr : ProjectResults × ProjectResults) : Except String ComparisonStats :=
  if dictEqb pr.1 pr.2 then Except.ok stats
  else
    pr.1.foldlM (summaryFileStep pr.2)
      { stats with differing_projects := stats.differing_projects + 1 }

/-- The statistics loop of `make_comparison_summary(project_pairs)`. -/
def make_comparison_summary (project_pairs : List (ProjectResults × ProjectResults)) :
    Except String ComparisonStats :=
  project_pairs.foldlM summaryPairStep
    { lines := (project_pairs.map (fun pr => projectLineCount pr.1)).sum,
      files := (project_pairs.map (fun pr => pr.1.length)).sum,
      differing_projects := 0, differing_files := 0,
      additions := 0, deletions := 0 }

/-! ## The claims -/

theorem contains_rtype_iff (results : List FileResult) (t : RType) :
    (results.map FileResult.rtype).contains t = true ↔
      ∃ r ∈ results, r.rtype = t := by
  constructor
  · intro h
    obtain ⟨r, hr, he⟩ := List.mem_map.mp (List.elem_iff.mp h)
    exact ⟨r, hr, he⟩
  · rintro ⟨r, hr, he⟩
    exact List.elem_iff.mpr (List.mem_map.mpr ⟨r, hr, he⟩)

/-- C2: rollup correctness of `get_overall_result`: on a non-empty group
the result is `failed` iff some entry failed; failing that it is
`reformatted` iff some entry was reformatted; failing both it is
`nothing-changed`; and an empty group trips the assertion instead of being
silently resolved. -/
theorem get_overall_result_spec (results : List FileResult) :
    (results ≠ [] →
      ((get_overall_result results = Except.ok RType.failed ↔
          ∃ r ∈ results, r.rtype = RType.failed) ∧
        (¬(∃ r ∈ results, r.rtype = RType.failed) →
          (get_overall_result results = Except.ok RType.reformatted ↔
            ∃ r ∈ results, r.rtype = RType.reformatted)) ∧
        (¬(∃ r ∈ results, r.rtype = RType.failed) →
          ¬(∃ r ∈ results, r.rtype = RType.reformatted) →
          get_overall_result results = Except.ok RType.nothingChanged))) ∧
    (results = [] →
      get_overall_result results = Except.error "AssertionError") := by
  constructor
  · intro hne
    have hnall : ¬(∃ r ∈ results, r.rtype = RType.failed) →
        ¬(∃ r ∈ results, r.rtype = RType.reformatted) →
        get_overall_result results = Except.ok RType.nothingChanged := by
      intro hf hr
      have hcf : ¬((results.map FileResult.rtype).contains RType.failed = true) :=
        fun h => hf ((contains_rtype_iff results RType.failed).mp h)
      have hcr : ¬((results.map FileResult.rtype).contains RType.reformatted = true) :=
        fun h => hr ((contains_rtype_iff results RType.reformatted).mp h)
      unfold get_overall_result
      rw [if_neg hcf, if_neg hcr, if_pos]
      constructor
      · rw [List.all_eq_true]
        intro t ht
        obtain ⟨r, hrr, he⟩ := List.mem_map.mp ht
        cases hrt : r.rtype with
        | nothingChanged => rw [← he, hrt]; rfl
        | reformatted => exact absurd ⟨r, hrr, hrt⟩ hr
        | failed => exact absurd ⟨r, hrr, hrt⟩ hf
      · simp only [List.isEmpty_iff, List.map_eq_nil_iff]
        exact fun h => hne h
    refine ⟨?_, ?_, hnall⟩
    · constructor
      · intro h
        by_contra hex
        have hcf : ¬((results.map FileResult.rtype).contains RType.failed = true) :=
          fun hh => hex ((contains_rtype_iff results RType.failed).mp hh)
        unfold get_overall_result at h
        rw [if_neg hcf] at h
        by_cases hcr : (results.map FileResult.rtype).contains RType.reformatted = true
        · rw [if_pos hcr] at h
          exact RType.noConfusion (Except.ok.inj h)
        · rw [if_neg hcr] at h
          by_cases hn : (results.map FileResult.rtype).all
              (fun t => t == RType.nothingChanged) = true ∧
              ¬(results.map FileResult.rtype).isEmpty = true
          · rw [if_pos hn] at h
            exact RType.noConfusion (Except.ok.inj h)
          · rw [if_neg hn] at h
            exact Except.noConfusion h
      · intro hex
        unfold get_overall_result
        rw [if_pos ((contains_rtype_iff results RType.failed).mpr hex)]
    · intro hf
      have hcf : ¬((results.map FileResult.rtype).contains RType.failed = true) :=
        fun hh => hf ((contains_rtype_iff results RType.failed).mp hh)
      constructor
      · intro h
        by_contra hex
        have hcr : ¬((results.map FileResult.rtype).contains RType.reformatted = true) :=
          fun hh => hex ((contains_rtype_iff results RType.reformatted).mp hh)
        unfold get_overall_result at h
        rw [if_neg hcf, if_neg hcr] at h
        by_cases hn : (results.map FileResult.rtype).all
            (fun t => t == RType.nothingChanged) = true ∧
            ¬(results.map FileResult.rtype).isEmpty = true
        · rw [if_pos hn] at h
          exact RType.noConfusion (Except.ok.inj h)
        · rw [if_neg hn] at h
          exact Except.noConfusion h
      · intro hex
        unfold get_overall_result
        rw [if_neg hcf, if_pos ((contains_rtype_iff results RType.reformatted).mpr hex)]
  · intro h
    subst h
    rfl

/-- Witness for C2 at a concrete mixed group: `failed` wins. -/
theorem get_overall_result_spec_witness :
    get_overall_result
      [FileResult.reformatted (ReformattedResult.init "b" "B" (-1) (1, 1)),
       FileResult.failed (FailedResult.init "c" "RuntimeError" "heck no!" none (-1))] =
      Except.ok RType.failed :=
  (((get_overall_result_spec _).1 (by decide)).1).mpr
    ⟨FileResult.failed (FailedResult.init "c" "RuntimeError" "heck no!" none (-1)),
      by decide, rfl⟩

/-- Modelled from the spec: the claimed derived line count — 1 when `src`
is empty, otherwise the number of newline-delimited lines of `src` (a
final segment without a trailing newline still counts as a line). -/
def specLineCount (s : String) : Nat :=
  if s.data = [] then 1
  else countNewlines s + (if s.data.getLast? = some '\n' then 0 else 1)

/-- C3 (counterexample): on the two-line source `"a\nb"` (no trailing
newline) the code computes `line_count = max(1, src.count("\n")) = 1`,
while the claimed count of newline-delimited lines is 2. -/
theorem line_count_counterexample :
    (NothingChangedResult.init "a\nb" (-1)).line_count = 1 ∧
    specLineCount "a\nb" = 2 ∧
    (NothingChangedResult.init "a\nb" (-1)).line_count ≠
      (specLineCount "a\nb" : Int) := by
  refine ⟨by decide, by decide, by decide⟩

/-- C3 (amended): every result shape derives
`line_count = max(1, src.count("\n"))`; this agrees with the
newline-delimited line count exactly on sources that are empty, end with a
newline, or contain no newline at all. -/
theorem line_count_amended (src dst error message : String) (log : Option String) :
    (NothingChangedResult.init src (-1)).line_count =
      ((max 1 (countNewlines src) : Nat) : Int) ∧
    (ReformattedResult.init src dst (-1) (-1, -1)).line_count =
      ((max 1 (countNewlines src) : Nat) : Int) ∧
    (FailedResult.init src error message log (-1)).line_count =
      ((max 1 (countNewlines src) : Nat) : Int) ∧
    ((src.data = [] ∨ src.data.getLast? = some '\n' ∨ countNewlines src = 0) →
      (NothingChangedResult.init src (-1)).line_count = (specLineCount src : Int)) := by
  have hconv : convert_line_count src (-1) = ((max 1 (countNewlines src) : Nat) : Int) := by
    unfold convert_line_count
    rw [if_pos rfl]
  refine ⟨hconv, ?_, hconv, ?_⟩
  · unfold ReformattedResult.init
    rw [if_pos rfl]
    exact hconv
  · intro hc
    show convert_line_count src (-1) = (specLineCount src : Int)
    rw [hconv]
    unfold specLineCount
    rcases hc with hc | hc | hc
    · rw [if_pos hc]
      have h0 : countNewlines src = 0 := by
        unfold countNewlines
        rw [hc]
        rfl
      rw [h0]
      norm_num
    · have hne : src.data ≠ [] := by
        intro h0
        rw [h0] at hc
        exact Option.noConfusion hc
      rw [if_neg hne, if_pos hc]
      have hmem : '\n' ∈ src.data := List.mem_of_mem_getLast? hc
      have hpos : 0 < countNewlines src := List.count_pos_iff.mpr hmem
      omega
    · by_cases hne : src.data = []
      · rw [if_pos hne, hc]
        norm_num
      · rw [if_neg hne, hc]
        have : ¬(src.data.getLast? = some '\n') := by
          intro h
          have hmem : '\n' ∈ src.data := List.mem_of_mem_getLast? h
          have hpos : 0 < countNewlines src := List.count_pos_iff.mpr hmem
          omega
        rw [if_neg this]
        norm_num

/-- Witness for C3 (amended) at `src = "x\n"`. -/
theorem line_count_amended_witness :
    (NothingChangedResult.init "x\n" (-1)).line_count = (specLineCount "x\n" : Int) :=
  (line_count_amended "x\n" "" "" "" none).2.2.2 (Or.inr (Or.inl (by decide)))

/-- C7: loading a document whose (hyphenated) metadata carries a
`data-format` number outside the supported range `[1, 2)` fails with an
error: no `Analysis` value is returned, and in particular no best-effort
parsing of the results section can be observed. -/
theorem load_rejects_bad_data_format (root : List (String × JSON))
    (m : List (String × JSON)) (q : ℚ)
    (hm : root.lookup "metadata" = some (JSON.obj m))
    (hq : (m.map (fun p => (hyphenate p.1, p.2))).lookup "data-format" =
      some (JSON.num q))
    (hrange : ¬(1 ≤ q ∧ q < 2)) :
    ∃ e, load_analysis_contents (JSON.obj root) = Except.error e := by
  unfold load_analysis_contents
  rw [show (JSON.obj root).getObj = Except.ok root from rfl]
  dsimp only
  rcases hpj : root.lookup "projects" with _ | pj
  · rw [show getKey root "projects" = Except.error ("KeyError: " ++ "projects") from by
      simp [getKey, hpj]]
    exact ⟨"KeyError: " ++ "projects", rfl⟩
  rw [show getKey root "projects" = Except.ok pj from by
    simp [getKey, hpj]]
  dsimp only
  rcases pj with _ | b | n | s | l | kvs
  case null => exact ⟨"TypeError: not a dict", rfl⟩
  case bool => exact ⟨"TypeError: not a dict", rfl⟩
  case num => exact ⟨"TypeError: not a dict", rfl⟩
  case str => exact ⟨"TypeError: not a dict", rfl⟩
  case arr => exact ⟨"TypeError: not a dict", rfl⟩
  case obj =>
  dsimp only [JSON.getObj]
  rcases hpm : kvs.mapM (fun p => do
      let proj ← parse_project p.2
      Except.ok (p.1, proj)) with e | projects
  · rw [hpm]
    exact ⟨e, rfl⟩
  rw [hpm]
  dsimp only
  rw [show getKey root "metadata" = Except.ok (JSON.obj m) from by
    simp [getKey, hm]]
  dsimp only [JSON.getObj]
  rw [hq]
  dsimp only
  rw [if_pos hrange]
  exact ⟨"ValueError: unsupported analysis format", rfl⟩

/-- Witness for C7: a well-formed document with `data-format: 5` is
rejected. -/
theorem load_rejects_bad_data_format_witness :
    ∃ e, load_analysis_contents (JSON.obj
      [("projects", JSON.obj []),
       ("results", JSON.obj []),
       ("metadata", JSON.obj [("data-format", JSON.num 5)])]) =
      Except.error e :=
  load_rejects_bad_data_format _ [("data-format", JSON.num 5)] 5 rfl rfl
    (by intro h; exact absurd h.2 (by norm_num))

/-- `evictLoop` drops exactly the leading entries beyond the bound. -/
theorem evictLoop_eq_drop (bound : Nat) :
    ∀ l : List (String × ℚ), evictLoop bound l = l.drop (l.length - bound) := by
  intro l
  induction l with
  | nil => simp [evictLoop]
  | cons x xs ih =>
    by_cases h : bound < (x :: xs).length
    · rw [evictLoop, if_pos h, ih]
      have he : (x :: xs).length - bound = (xs.length - bound) + 1 := by
        simp only [List.length_cons] at h ⊢
        omega
      rw [he]
      rfl
    · rw [evictLoop, if_neg h]
      have he : (x :: xs).length - bound = 0 := by
        simp only [List.length_cons] at h ⊢
        omega
      rw [he]
      rfl

/-- C9: `clear_cache(ensure_room=True)` keeps at most
`CACHE_MAX_ENTRIES - 1` entries; every survivor is within the age cutoff;
every size-phase survivor within the cutoff is kept; and every entry the
size phase deletes was accessed no later than every entry it keeps (the
eviction is least-recently-accessed-first). -/
theorem clear_cache_spec (entries : List (String × ℚ)) (now : ℚ) :
    (clear_cache entries now true).length ≤ CACHE_MAX_ENTRIES - 1 ∧
    (∀ e ∈ clear_cache entries now true,
      ¬(CACHE_LAST_ACCESS_CUTOFF < now - e.2)) ∧
    (∀ e ∈ evictLoop (CACHE_MAX_ENTRIES - 1) (List.insertionSort atimeLE entries),
      ¬(CACHE_LAST_ACCESS_CUTOFF < now - e.2) →
        e ∈ clear_cache entries now true) ∧
    (∀ d ∈ clear_cache_evicted entries true,
      ∀ k ∈ evictLoop (CACHE_MAX_ENTRIES - 1) (List.insertionSort atimeLE entries),
        d.2 ≤ k.2) := by
  have hsorted : List.Sorted atimeLE (List.insertionSort atimeLE entries) :=
    List.sorted_insertionSort atimeLE entries
  have hkept : evictLoop (CACHE_MAX_ENTRIES - 1)
      (List.insertionSort atimeLE entries) =
      (List.insertionSort atimeLE entries).drop
        ((List.insertionSort atimeLE entries).length - (CACHE_MAX_ENTRIES - 1)) :=
    evictLoop_eq_drop _ _
  have hcc : clear_cache entries now true =
      (evictLoop (CACHE_MAX_ENTRIES - 1) (List.insertionSort atimeLE entries)).filter
        (fun e => ¬(CACHE_LAST_ACCESS_CUTOFF < now - e.2)) := rfl
  refine ⟨?_, ?_, ?_, ?_⟩
  · rw [hcc]
    calc ((evictLoop (CACHE_MAX_ENTRIES - 1)
          (List.insertionSort atimeLE entries)).filter
          (fun e => ¬(CACHE_LAST_ACCESS_CUTOFF < now - e.2))).length ≤
        (evictLoop (CACHE_MAX_ENTRIES - 1)
          (List.insertionSort atimeLE entries)).length :=
      List.length_filter_le _ _
    _ ≤ CACHE_MAX_ENTRIES - 1 := by
      rw [hkept, List.length_drop]
      omega
  · intro e he
    rw [hcc] at he
    have := (List.mem_filter.mp he).2
    exact of_decide_eq_true this
  · intro e he hage
    rw [hcc]
    exact List.mem_filter.mpr ⟨he, decide_eq_true hage⟩
  · intro d hd k hk
    rw [hkept] at hk
    have hdt : d ∈ (List.insertionSort atimeLE entries).take
        ((List.insertionSort atimeLE entries).length - (CACHE_MAX_ENTRIES - 1)) := hd
    have hpw := hsorted
    rw [← List.take_append_drop
      ((List.insertionSort atimeLE entries).length - (CACHE_MAX_ENTRIES - 1))
      (List.insertionSort atimeLE entries)] at hpw
    exact (List.pairwise_append.mp hpw).2.2 d hdt k hk

/-- Witness for C9 on six concrete entries: the two least-recently-accessed
entries are the ones the size phase evicts. -/
theorem clear_cache_spec_witness :
    (clear_cache [("a", 9), ("b", 2), ("c", 3), ("d", 4), ("e", 5), ("f", 6)]
      10 true).length ≤ CACHE_MAX_ENTRIES - 1 ∧
    ((("b" : String), (2 : ℚ)).2 ≤ (("d" : String), (4 : ℚ)).2) :=
  ⟨(clear_cache_spec [("a", 9), ("b", 2), ("c", 3), ("d", 4), ("e", 5), ("f", 6)] 10).1,
   (clear_cache_spec [("a", 9), ("b", 2), ("c", 3), ("d", 4), ("e", 5), ("f", 6)] 10).2.2.2
     ("b", 2) (by decide) ("d", 4) (by decide)⟩

/-- An error-producing element makes an `Except`-valued left fold error. -/
theorem foldlM_error_of_mem {α β : Type} (f : β → α → Except String β) :
    ∀ (l : List α) (x : α), x ∈ l →
      (∀ acc, ∃ e, f acc x = Except.error e) →
      ∀ acc, ∃ e, l.foldlM f acc = Except.error e := by
  intro l
  induction l with
  | nil => intro x hx; exact absurd hx (List.not_mem_nil x)
  | cons y ys ih =>
    intro x hx hf acc
    rcases hy : f acc y with e | acc'
    · exact ⟨e, by rw [List.foldlM_cons, hy]; rfl⟩
    · rcases List.mem_cons.mp hx with h | h
      · subst h
        obtain ⟨e, he⟩ := hf acc
        rw [hy] at he
        exact Except.noConfusion he
      · obtain ⟨e, he⟩ := ih x h hf acc'
        refine ⟨e, ?_⟩
        rw [List.foldlM_cons, hy]
        simpa using he

/-- Pointwise-equal step functions give equal `Except`-valued left folds. -/
theorem foldlM_congr_mem {α β : Type} (f g : β → α → Except String β) :
    ∀ (l : List α), (∀ x ∈ l, ∀ acc, f acc x = g acc x) →
      ∀ acc, l.foldlM f acc = l.foldlM g acc := by
  intro l
  induction l with
  | nil => intro _ acc; rfl
  | cons y ys ih =>
    intro hfg acc
    rw [List.foldlM_cons, List.foldlM_cons,
      hfg y (List.mem_cons_self y ys) acc]
    rcases g acc y with e | acc'
    · rfl
    · simpa using ih (fun x hx => hfg x (List.mem_cons_of_mem y hx)) acc'

theorem lookup_eq_none_of_keys (l : List (String × FileResult)) (k : String)
    (h : ∀ p ∈ l, p.1 ≠ k) : l.lookup k = none := by
  induction l with
  | nil => rfl
  | cons y ys ih =>
    have hy : (k == y.1) = false :=
      beq_false_of_ne (fun he => h y (List.mem_cons_self y ys) he.symm)
    rw [List.lookup, hy]
    exact ih (fun p hp => h p (List.mem_cons_of_mem y hp))

theorem lookup_append_left (l1 l2 : List (String × FileResult)) (k : String)
    (v : FileResult) (h : l1.lookup k = some v) :
    (l1 ++ l2).lookup k = some v := by
  induction l1 with
  | nil => exact absurd h (by simp [List.lookup])
  | cons y ys ih =>
    rw [List.cons_append, List.lookup]
    rw [List.lookup] at h
    rcases hk : (k == y.1) with _ | _
    · rw [hk] at h
      exact ih h
    · rw [hk] at h
      exact h

theorem lookup_append_none (l1 l2 : List (String × FileResult)) (k : String)
    (h : l1.lookup k = none) : (l1 ++ l2).lookup k = l2.lookup k := by
  induction l1 with
  | nil => rfl
  | cons y ys ih =>
    rw [List.cons_append, List.lookup]
    rw [List.lookup] at h
    rcases hk : (k == y.1) with _ | _
    · rw [hk] at h
      exact ih h
    · rw [hk] at h
      exact Option.noConfusion h

/-- C10: when two ProjectResults mappings for a shared project are
compared, every file of the first mapping is looked up unconditionally in
the second: a file missing from the second makes both
`compare_project_pair` and `make_comparison_summary` raise a `KeyError`
(never report or exclude the difference), while files present only in the
second mapping are ignored by the per-file loop (extending the second
mapping with keys foreign to the first leaves `compare_project_pair`
unchanged). -/
theorem comparison_missing_file_spec :
    (∀ (pname : String) (r1s r2s : ProjectResults) (k : String) (v : FileResult),
      (k, v) ∈ r1s → r2s.lookup k = none →
      ∃ e, compare_project_pair pname r1s r2s = Except.error e) ∧
    (∀ (pairs : List (ProjectResults × ProjectResults))
        (r1s r2s : ProjectResults) (k : String) (v : FileResult),
      (r1s, r2s) ∈ pairs → (k, v) ∈ r1s → r2s.lookup k = none →
      ∃ e, make_comparison_summary pairs = Except.error e) ∧
    (∀ (pname : String) (r1s r2s extra : ProjectResults),
      (∀ p ∈ extra, ∀ q ∈ r1s, p.1 ≠ q.1) →
      compare_project_pair pname r1s (r2s ++ extra) =
        compare_project_pair pname r1s r2s) := by
  have hstep : ∀ (pname : String) (r2s : ProjectResults) (k : String)
      (v : FileResult), r2s.lookup k = none →
      ∀ acc, ∃ e, comparePairStep pname r2s acc (k, v) = Except.error e := by
    intro pname r2s k v hnone acc
    refine ⟨"KeyError: " ++ k, ?_⟩
    unfold comparePairStep
    rw [hnone]
  have hsstep : ∀ (r2s : ProjectResults) (k : String) (v : FileResult),
      r2s.lookup k = none →
      ∀ st, ∃ e, summaryFileStep r2s st (k, v) = Except.error e := by
    intro r2s k v hnone st
    refine ⟨"KeyError: " ++ k, ?_⟩
    unfold summaryFileStep
    rw [hnone]
  refine ⟨?_, ?_, ?_⟩
  · intro pname r1s r2s k v hmem hnone
    exact foldlM_error_of_mem (comparePairStep pname r2s) r1s (k, v) hmem
      (hstep pname r2s k v hnone) (false, [])
  · intro pairs r1s r2s k v hpair hmem hnone
    refine foldlM_error_of_mem summaryPairStep pairs (r1s, r2s) hpair ?_ _
    intro stats
    have hne : dictEqb r1s r2s = false := by
      unfold dictEqb
      have hall : r1s.all (fun p => decide (r2s.lookup p.1 = some p.2)) = false := by
        rw [List.all_eq_false]
        refine ⟨(k, v), hmem, ?_⟩
        simp [hnone]
      rw [hall, Bool.and_false]
    unfold summaryPairStep
    rw [hne]
    simp only [Bool.false_eq_true, if_false]
    exact foldlM_error_of_mem (summaryFileStep r2s) r1s (k, v) hmem
      (hsstep r2s k v hnone) _
  · intro pname r1s r2s extra hdisj
    unfold compare_project_pair
    refine foldlM_congr_mem _ _ r1s ?_ (false, [])
    intro p hp acc
    unfold comparePairStep
    rcases hl : r2s.lookup p.1 with _ | v2
    · rw [lookup_append_none r2s extra p.1 hl,
        lookup_eq_none_of_keys extra p.1 (fun q hq => hdisj q hq p hp)]
    · rw [lookup_append_left r2s extra p.1 v2 hl]

/-- Witness for C10: a one-file first mapping whose file is absent from
the second mapping raises. -/
theorem comparison_missing_file_spec_witness :
    ∃ e, compare_project_pair "proj"
      [("a.py", FileResult.nothingChanged (NothingChangedResult.init "a\n" (-1)))]
      [("b.py", FileResult.nothingChanged (NothingChangedResult.init "a\n" (-1)))] =
      Except.error e :=
  comparison_missing_file_spec.1 "proj" _ _ "a.py"
    (FileResult.nothingChanged (NothingChangedResult.init "a\n" (-1)))
    (by decide) (by decide)

/-- A `FileResult` in the state the frozen dataclasses guarantee after
`__post_init__`: `line_count` has been filled in (it is never `-1`), and a
reformatted result's `line_changes` pair has been computed (never
`(-1, -1)`). -/
def FileResult.WF : FileResult → Prop
  | FileResult.nothingChanged r => r.line_count ≠ -1
  | FileResult.reformatted r => r.line_count ≠ -1 ∧ r.line_changes ≠ (-1, -1)
  | FileResult.failed r => r.line_count ≠ -1

instance : ∀ r : FileResult, Decidable (FileResult.WF r) := fun r =>
  match r with
  | FileResult.nothingChanged rr =>
      inferInstanceAs (Decidable (rr.line_count ≠ -1))
  | FileResult.reformatted rr =>
      inferInstanceAs (Decidable (rr.line_count ≠ -1 ∧ rr.line_changes ≠ (-1, -1)))
  | FileResult.failed rr =>
      inferInstanceAs (Decidable (rr.line_count ≠ -1))

/-- An `Analysis` value as the program actually persists one: post-init
normalized file results; Python-dict key uniqueness for each mapping (the
JSON text of a dict cannot carry duplicate keys, so the model restricts to
this case); hyphenated metadata keys (fixed points of the `"_" → "-"`
translation applied on load); and an in-range `data-format` marker. -/
structure Analysis.WF (a : Analysis) : Prop where
  results_wf : ∀ pr ∈ a.results, ∀ f ∈ pr.2, FileResult.WF f.2
  projects_keys : (a.projects.map Prod.fst).Nodup
  results_keys : (a.results.map Prod.fst).Nodup
  files_keys : ∀ pr ∈ a.results, (pr.2.map Prod.fst).Nodup
  metadata_nodup : (a.metadata.map Prod.fst).Nodup
  metadata_keys : ∀ p ∈ a.metadata, hyphenate p.1 = p.1
  data_format : ∃ q : ℚ,
    a.metadata.lookup "data-format" = some (JSON.num q) ∧ 1 ≤ q ∧ q < 2

theorem getOptStr_optStrJson (o : Option String) :
    (optStrJson o).getOptStr = Except.ok o := by
  cases o <;> rfl

theorem getInt_intCast (n : Int) : (JSON.num (n : ℚ)).getInt = Except.ok n := by
  show (if ((n : ℚ)).den = 1 then Except.ok ((n : ℚ)).num
      else Except.error "TypeError: not an int") = Except.ok n
  rw [if_pos (Rat.den_intCast n), Rat.num_intCast]

theorem getStrList_map_str (l : List String) :
    (JSON.arr (l.map JSON.str)).getStrList = Except.ok l := by
  show (l.map JSON.str).mapM JSON.getStr = Except.ok l
  induction l with
  | nil => rfl
  | cons x xs ih =>
    rw [List.map_cons, List.mapM_cons, ih]
    rfl

theorem parse_project_asdict (p : Project) :
    parse_project p.asdict = Except.ok p := by
  simp [parse_project, Project.asdict, JSON.getObj, JSON.getStr, reqStr,
    optOptStr, keysSubset, getStrList_map_str, getOptStr_optStrJson,
    List.lookup, Except.instMonad, Except.bind, Except.pure]

theorem parse_file_result_asdict (r : FileResult) (h : FileResult.WF r) :
    parse_file_result r.asdict = Except.ok r := by
  cases r with
  | nothingChanged rr =>
    have hlc : rr.line_count ≠ -1 := h
    simp [parse_file_result, FileResult.asdict, JSON.getObj, JSON.getStr, reqStr,
      optIntD, keysSubset, getInt_intCast, List.lookup,
      NothingChangedResult.init, convert_line_count, hlc,
      Except.instMonad, Except.bind, Except.pure]
  | reformatted rr =>
    have hlc : rr.line_count ≠ -1 := h.1
    have hch : rr.line_changes ≠ (-1, -1) := h.2
    simp [parse_file_result, FileResult.asdict, JSON.getObj, JSON.getStr, reqStr,
      optIntD, optPairD, keysSubset, getInt_intCast, List.lookup,
      ReformattedResult.init, convert_line_count, hlc, hch,
      Except.instMonad, Except.bind, Except.pure]
  | failed rr =>
    have hlc : rr.line_count ≠ -1 := h
    simp [parse_file_result, FileResult.asdict, JSON.getObj, JSON.getStr, reqStr,
      optIntD, optOptStr, keysSubset, getInt_intCast, getOptStr_optStrJson,
      List.lookup, FailedResult.init, convert_line_count, hlc,
      Except.instMonad, Except.bind, Except.pure]

theorem mapM_parse_projects (ps : List (String × Project)) :
    (ps.map (fun p => (p.1, p.2.asdict))).mapM (fun p => do
        let proj ← parse_project p.2
        Except.ok (p.1, proj)) = Except.ok ps := by
  induction ps with
  | nil => rfl
  | cons x xs ih =>
    rw [List.map_cons, List.mapM_cons]
    show (do
        let y ← (do
          let proj ← parse_project x.2.asdict
          Except.ok (x.1, proj))
        let ys ← (xs.map (fun p => (p.1, p.2.asdict))).mapM (fun p => do
          let proj ← parse_project p.2
          Except.ok (p.1, proj))
        pure (y :: ys)) = Except.ok (x :: xs)
    rw [parse_project_asdict x.2, ih]
    rfl

theorem mapM_parse_files (fs : ProjectResults)
    (h : ∀ f ∈ fs, FileResult.WF f.2) :
    parse_named_results (fs.map (fun f => (f.1, f.2.asdict))) = Except.ok fs := by
  unfold parse_named_results
  induction fs with
  | nil => rfl
  | cons x xs ih =>
    rw [List.map_cons, List.mapM_cons]
    show (do
        let y ← (do
          let r ← parse_file_result x.2.asdict
          Except.ok (x.1, r))
        let ys ← (xs.map (fun f => (f.1, f.2.asdict))).mapM (fun f => do
          let r ← parse_file_result f.2
          Except.ok (f.1, r))
        pure (y :: ys)) = Except.ok (x :: xs)
    rw [parse_file_result_asdict x.2 (h x (List.mem_cons_self x xs)),
      ih (fun f hf => h f (List.mem_cons_of_mem x hf))]
    rfl

theorem mapM_parse_results (rs : List (String × ProjectResults))
    (h : ∀ pr ∈ rs, ∀ f ∈ pr.2, FileResult.WF f.2) :
    (rs.map (fun pr =>
        (pr.1, JSON.obj (pr.2.map (fun f => (f.1, f.2.asdict)))))).mapM
      (fun pr => do
        let files ← pr.2.getObj
        let parsed ← parse_named_results files
        Except.ok (pr.1, parsed)) = Except.ok rs := by
  induction rs with
  | nil => rfl
  | cons x xs ih =>
    rw [List.map_cons, List.mapM_cons]
    show (do
        let y ← (do
          let files ← (JSON.obj (x.2.map (fun f => (f.1, f.2.asdict)))).getObj
          let parsed ← parse_named_results files
          Except.ok (x.1, parsed))
        let ys ← (xs.map (fun pr =>
            (pr.1, JSON.obj (pr.2.map (fun f => (f.1, f.2.asdict)))))).mapM
          (fun pr => do
            let files ← pr.2.getObj
            let parsed ← parse_named_results files
            Except.ok (pr.1, parsed))
        pure (y :: ys)) = Except.ok (x :: xs)
    rw [show (JSON.obj (x.2.map (fun f => (f.1, f.2.asdict)))).getObj =
        Except.ok (x.2.map (fun f => (f.1, f.2.asdict))) from rfl]
    show (do
        let y ← (do
          let parsed ← parse_named_results (x.2.map (fun f => (f.1, f.2.asdict)))
          Except.ok (x.1, parsed))
        let ys ← (xs.map (fun pr =>
            (pr.1, JSON.obj (pr.2.map (fun f => (f.1, f.2.asdict)))))).mapM
          (fun pr => do
            let files ← pr.2.getObj
            let parsed ← parse_named_results files
            Except.ok (pr.1, parsed))
        pure (y :: ys)) = Except.ok (x :: xs)
    rw [mapM_parse_files x.2 (h x (List.mem_cons_self x xs)),
      ih (fun pr hpr => h pr (List.mem_cons_of_mem x hpr))]
    rfl

theorem hyphenate_map_id (m : List (String × JSON))
    (h : ∀ p ∈ m, hyphenate p.1 = p.1) :
    m.map (fun p => (hyphenate p.1, p.2)) = m := by
  induction m with
  | nil => rfl
  | cons x xs ih =>
    rw [List.map_cons, h x (List.mem_cons_self x xs),
      ih (fun p hp => h p (List.mem_cons_of_mem x hp))]

/-- C1 (amended): round-trip fidelity of persistence holds for every
well-formed `Analysis` value — one whose metadata carries a `data-format`
number in `[1, 2)` under already-hyphenated (underscore-free) keys —
through both the plain document path and the single-entry zip path. -/
theorem save_load_roundtrip (a : Analysis) (hwf : Analysis.WF a) :
    load_analysis_contents (save_analysis_contents a) = Except.ok a ∧
    load_analysis_zip (save_analysis_zip a) = Except.ok a := by
  obtain ⟨q, hq, hq1, hq2⟩ := hwf.data_format
  have hmain : load_analysis_contents (save_analysis_contents a) = Except.ok a := by
    unfold save_analysis_contents load_analysis_contents
    rw [show (JSON.obj
        [("projects", JSON.obj (a.projects.map (fun p => (p.1, p.2.asdict)))),
         ("results", JSON.obj (a.results.map (fun pr =>
            (pr.1, JSON.obj (pr.2.map (fun f => (f.1, f.2.asdict))))))),
         ("metadata", JSON.obj a.metadata)]).getObj =
      Except.ok
        [("projects", JSON.obj (a.projects.map (fun p => (p.1, p.2.asdict)))),
         ("results", JSON.obj (a.results.map (fun pr =>
            (pr.1, JSON.obj (pr.2.map (fun f => (f.1, f.2.asdict))))))),
         ("metadata", JSON.obj a.metadata)] from rfl]
    dsimp only
    rw [show getKey
        [("projects", JSON.obj (a.projects.map (fun p => (p.1, p.2.asdict)))),
         ("results", JSON.obj (a.results.map (fun pr =>
            (pr.1, JSON.obj (pr.2.map (fun f => (f.1, f.2.asdict))))))),
         ("metadata", JSON.obj a.metadata)] "projects" =
      Except.ok (JSON.obj (a.projects.map (fun p => (p.1, p.2.asdict)))) from rfl]
    dsimp only
    rw [show (JSON.obj (a.projects.map (fun p => (p.1, p.2.asdict)))).getObj =
      Except.ok (a.projects.map (fun p => (p.1, p.2.asdict))) from rfl]
    dsimp only
    rw [mapM_parse_projects a.projects]
    dsimp only
    rw [show getKey
        [("projects", JSON.obj (a.projects.map (fun p => (p.1, p.2.asdict)))),
         ("results", JSON.obj (a.results.map (fun pr =>
            (pr.1, JSON.obj (pr.2.map (fun f => (f.1, f.2.asdict))))))),
         ("metadata", JSON.obj a.metadata)] "metadata" =
      Except.ok (JSON.obj a.metadata) from rfl]
    dsimp only
    rw [show (JSON.obj a.metadata).getObj = Except.ok a.metadata from rfl]
    dsimp only
    rw [hyphenate_map_id a.metadata hwf.metadata_keys, hq]
    dsimp only
    rw [if_neg (not_not_intro ⟨hq1, hq2⟩)]
    rw [show getKey
        [("projects", JSON.obj (a.projects.map (fun p => (p.1, p.2.asdict)))),
         ("results", JSON.obj (a.results.map (fun pr =>
            (pr.1, JSON.obj (pr.2.map (fun f => (f.1, f.2.asdict))))))),
         ("metadata", JSON.obj a.metadata)] "results" =
      Except.ok (JSON.obj (a.results.map (fun pr =>
        (pr.1, JSON.obj (pr.2.map (fun f => (f.1, f.2.asdict))))))) from rfl]
    dsimp only
    rw [show (JSON.obj (a.results.map (fun pr =>
        (pr.1, JSON.obj (pr.2.map (fun f => (f.1, f.2.asdict))))))).getObj =
      Except.ok (a.results.map (fun pr =>
        (pr.1, JSON.obj (pr.2.map (fun f => (f.1, f.2.asdict)))))) from rfl]
    dsimp only
    rw [mapM_parse_results a.results hwf.results_wf]
  exact ⟨hmain, hmain⟩

/-- An Analysis whose metadata lacks a `data-format` marker: `save` writes
it, but loading the written document raises (`1 <= None` is a `TypeError`),
so `load(save(x)) == x` fails. -/
def analysisNoFormat : Analysis :=
  { projects := [], results := [], metadata := [] }

/-- C1 (counterexample): the round trip is not the identity on every
`Analysis` value — an analysis without an in-range `data-format` metadata
entry saves fine but fails to load. -/
theorem save_load_roundtrip_counterexample :
    load_analysis_contents (save_analysis_contents analysisNoFormat) ≠
      Except.ok analysisNoFormat := by
  rw [show load_analysis_contents (save_analysis_contents analysisNoFormat) =
      Except.error "TypeError: data-format is None" from rfl]
  intro h
  exact Except.noConfusion h

/-- The analysis of the repository's own `basic.analysis.json` test
fixture (data-format replaced by the in-range integer 1 so that witness
arithmetic stays in the kernel-reducible fragment). -/
def basicAnalysis : Analysis :=
  { projects := [("test", ⟨"test", "https://example.com", [], none, none⟩)],
    results := [("test",
      [("a.py", FileResult.nothingChanged (NothingChangedResult.init "content\n" (-1)))])],
    metadata := [("black-version", JSON.str "21.12b0"),
                 ("created-at", JSON.str "2022-01-03T20:40:08.703857+00:00"),
                 ("data-format", JSON.num 1)] }

/-- Witness for C1 (amended) on a concrete analysis. -/
theorem save_load_roundtrip_witness :
    load_analysis_contents (save_analysis_contents basicAnalysis) =
      Except.ok basicAnalysis ∧
    load_analysis_zip (save_analysis_zip basicAnalysis) =
      Except.ok basicAnalysis :=
  save_load_roundtrip basicAnalysis
    ⟨by decide, by decide, by decide, by decide, by decide, by decide,
     ⟨1, rfl, le_refl 1, one_lt_two⟩⟩

theorem poolCompletions_lookup {α β : Type} (g : α → β) (tasks : List α) :
    ∀ (arrival : List Nat) (i : Nat) (hi : i < tasks.length), i ∈ arrival →
      (poolCompletions g tasks arrival).lookup i =
        some (g (tasks.get ⟨i, hi⟩)) := by
  intro arrival
  induction arrival with
  | nil => intro i hi hmem; exact absurd hmem (List.not_mem_nil i)
  | cons j js ih =>
    intro i hi hmem
    unfold poolCompletions
    rw [List.filterMap_cons]
    rcases hj : tasks[j]? with _ | t
    · rw [Option.map_none']
      rcases List.mem_cons.mp hmem with h | h
      · subst h
        rw [List.getElem?_eq_getElem hi] at hj
        exact Option.noConfusion hj
      · exact ih i hi h
    · rw [Option.map_some']
      by_cases hij : i = j
      · subst hij
        rw [List.getElem?_eq_getElem hi] at hj
        have ht : t = tasks.get ⟨i, hi⟩ := (Option.some.inj hj).symm
        rw [List.lookup, beq_self_eq_true]
        rw [ht]
      · rw [List.lookup, beq_false_of_ne hij]
        rcases List.mem_cons.mp hmem with h | h
        · exact absurd h hij
        · exact ih i hi h

theorem filterMap_eq_map_getD {γ δ : Type} (d : δ) :
    ∀ (l : List γ) (F : γ → Option δ), (∀ x ∈ l, (F x).isSome) →
      l.filterMap F = l.map (fun x => (F x).getD d) := by
  intro l
  induction l with
  | nil => intro F _; rfl
  | cons x xs ih =>
    intro F hall
    rw [List.filterMap_cons, List.map_cons]
    rcases hx : F x with _ | v
    · have hs := hall x (List.mem_cons_self x xs)
      rw [hx] at hs
      exact absurd hs (by simp)
    · rw [ih F (fun y hy => hall y (List.mem_cons_of_mem x hy))]
      rfl

/-- `pool.imap` yields exactly the mapped task list in submission order,
for every completion order that is a permutation of the task indices. -/
theorem poolImap_eq_map {α β : Type} [Inhabited β] (g : α → β) (tasks : List α)
    (arrival : List Nat) (hperm : arrival.Perm (List.range tasks.length)) :
    poolImap g tasks arrival = tasks.map g := by
  unfold poolImap
  have hmem : ∀ i, i < tasks.length → i ∈ arrival := by
    intro i hi
    exact hperm.mem_iff.mpr (List.mem_range.mpr hi)
  have hsome : ∀ i ∈ List.range tasks.length,
      ((poolCompletions g tasks arrival).lookup i).isSome := by
    intro i hi
    have hilt := List.mem_range.mp hi
    rw [poolCompletions_lookup g tasks arrival i hilt (hmem i hilt)]
    rfl
  rw [filterMap_eq_map_getD default (List.range tasks.length) _ hsome]
  apply List.ext_getElem
  · rw [List.length_map, List.length_range, List.length_map]
  · intro p h1 h2
    rw [List.getElem_map, List.getElem_map, List.getElem_range]
    have hp : p < tasks.length := by
      rw [List.length_map, List.length_range] at h1
      exact h1
    rw [poolCompletions_lookup g tasks arrival p hp (hmem p hp)]
    rfl

theorem dictInsert_append (acc : List (String × β)) (x : String × β)
    (hkey : ∀ q ∈ acc, q.1 ≠ x.1) :
    dictInsert acc x.1 x.2 = acc ++ [x] := by
  have hany : (acc.any fun p => p.1 == x.1) = false := by
    rw [List.any_eq_false]
    intro p hp
    simpa using hkey p hp
  unfold dictInsert
  rw [hany]
  simp

theorem buildDict_nodup_aux {β : Type} :
    ∀ (l acc : List (String × β)), ((acc ++ l).map Prod.fst).Nodup →
      l.foldl (fun d p => dictInsert d p.1 p.2) acc = acc ++ l := by
  intro l
  induction l with
  | nil => intro acc _; simp
  | cons x xs ih =>
    intro acc hnd
    rw [List.foldl_cons]
    have hkey : ∀ q ∈ acc, q.1 ≠ x.1 := by
      intro q hq he
      rw [List.map_append] at hnd
      obtain ⟨_, _, hdisj⟩ := List.nodup_append.mp hnd
      exact hdisj (List.mem_map.mpr ⟨q, hq, rfl⟩)
        (by rw [he]; exact List.mem_map.mpr ⟨x, List.mem_cons_self x xs, rfl⟩)
    rw [dictInsert_append acc x hkey]
    rw [ih (acc ++ [x]) (by simpa using hnd)]
    simp

theorem buildDict_of_nodup {β : Type} (l : List (String × β))
    (hnd : (l.map Prod.fst).Nodup) : buildDict l = l := by
  unfold buildDict
  have := buildDict_nodup_aux l [] (by simpa using hnd)
  simpa using this

instance : Inhabited FileResult := ⟨FileResult.nothingChanged ⟨"", -1⟩⟩

/-- C8: for every project, the key order of the assembled ProjectResults
mapping is exactly the sorted in-scope file list that was dispatched
(relativized to the project root), independently of the order in which
worker-pool completions arrive; and the dispatched list itself is the
lexicographically sorted `.py`/`.pyi` sublist of the discovered files. -/
theorem analyze_ordering (f : String → FileResult) (root : String)
    (discovered files : List String) (arrival : List Nat)
    (hfiles : get_project_files discovered = Except.ok files)
    (hperm : arrival.Perm (List.range files.length))
    (hinj : (files.map (relPosix root)).Nodup) :
    (check_project_files f root files arrival).map Prod.fst =
      files.map (relPosix root) ∧
    files.Sorted strLE ∧
    files = List.insertionSort strLE
      (discovered.filter (fun p => pathSuffix p = ".py" ∨ pathSuffix p = ".pyi")) := by
  have hfe : files = List.insertionSort strLE
      (discovered.filter (fun p => pathSuffix p = ".py" ∨ pathSuffix p = ".pyi")) := by
    unfold get_project_files at hfiles
    by_cases hd : discovered.isEmpty
    · rw [if_pos hd] at hfiles
      exact Except.noConfusion hfiles
    · rw [if_neg hd] at hfiles
      exact (Except.ok.inj hfiles).symm
  refine ⟨?_, by rw [hfe]; exact List.sorted_insertionSort strLE _, hfe⟩
  unfold check_project_files
  rw [poolImap_eq_map (fun fp => check_file_shim f root fp) files arrival hperm]
  have hkeys : ((files.map (fun fp => check_file_shim f root fp)).map Prod.fst) =
      files.map (relPosix root) := by
    rw [List.map_map]
    rfl
  rw [buildDict_of_nodup _ (by rw [hkeys]; exact hinj), hkeys]

/-- Witness for C8: three files dispatched, completions arriving in the
order 2, 0, 1, still yield keys in sorted dispatch order. -/
theorem analyze_ordering_witness :
    (check_project_files
      (fun _ => FileResult.nothingChanged (NothingChangedResult.init "a\n" (-1)))
      "/r" ["/r/a.py", "/r/b.py", "/r/c.py"] [2, 0, 1]).map Prod.fst =
      ["/r/a.py", "/r/b.py", "/r/c.py"].map (relPosix "/r") :=
  (analyze_ordering
    (fun _ => FileResult.nothingChanged (NothingChangedResult.init "a\n" (-1)))
    "/r" ["/r/c.py", "/r/a.py", "/r/b.py"] ["/r/a.py", "/r/b.py", "/r/c.py"]
    [2, 0, 1] rfl (by decide) (by decide)).1

/-- C4: `diff_two_results` raises exactly when a failing result is diffed
without `diff_failure`; on every other input it returns a diff string. -/
theorem diff_two_results_raises_iff (r1 r2 : FileResult) (file : String)
    (diff_failure : Bool) :
    (∃ e, diff_two_results r1 r2 file diff_failure = Except.error e) ↔
      ((r1.rtype = RType.failed ∨ r2.rtype = RType.failed) ∧
        diff_failure = false) := by
  unfold diff_two_results
  by_cases hf : r1.rtype = RType.failed ∨ r2.rtype = RType.failed
  · rw [if_pos hf]
    cases diff_failure with
    | false =>
        rw [if_pos (by simp)]
        simp [hf]
    | true =>
        rw [if_neg (by simp)]
        simp [hf]
  · rw [if_neg hf]
    simp [hf]

/-! ### C5: the display-text rule of `diff_two_results`

The spec's reading of the function is formalised by its own definitions
(`specFailureDisplay`, `specNormalDisplay`, `specUnifiedDiff5`) and compared
with `diff_two_results` as translated from the source. -/

/-- Spec-modelled display text when a failure is being diffed: a failed
result displays as the synthetic one-line token `[<error>: <message>]`, any
other result as the one-line token `[no crash]`. -/
def specFailureDisplay : FileResult → String
  | FileResult.failed f => "[" ++ f.error ++ ": " ++ f.message ++ "]\n"
  | FileResult.nothingChanged _ => "[no crash]\n"
  | FileResult.reformatted _ => "[no crash]\n"

/-- Spec-modelled display text when no failure is involved: `dst` for a
reformatted result, `src` otherwise. -/
def specNormalDisplay : FileResult → String
  | FileResult.reformatted r => r.dst
  | r => r.src

/-- Spec-modelled diffing of two display texts: a unified diff with an
explicit 5-line context window (the `n = 5` argument to
`difflibUnifiedDiff`), with the incomplete-line workaround applied. -/
def specUnifiedDiff5 (a b a_name b_name : String) : String :=
  String.join
    (((difflibUnifiedDiff (splitlinesKeepends a) (splitlinesKeepends b)
        a_name b_name 5).map fixLine).flatten)

/-- C5: for every pair of file results, when at least one is failed and
`diff_failure` is set the two sides display as `specFailureDisplay`
(`[<error>: <message>]` for a failed result, `[no crash]` otherwise), and
when neither is failed they display as `specNormalDisplay` (`dst` for
reformatted, `src` for nothing-changed); in both cases the two display
texts are unified-diffed with a 5-line context window. -/
theorem diff_two_results_display (r1 r2 : FileResult) (file : String) :
    ((r1.rtype = RType.failed ∨ r2.rtype = RType.failed) →
      diff_two_results r1 r2 file true =
        Except.ok (specUnifiedDiff5 (specFailureDisplay r1) (specFailureDisplay r2)
          ("a/" ++ file) ("b/" ++ file))) ∧
    (r1.rtype ≠ RType.failed → r2.rtype ≠ RType.failed →
      ∀ diff_failure, diff_two_results r1 r2 file diff_failure =
        Except.ok (specUnifiedDiff5 (specNormalDisplay r1) (specNormalDisplay r2)
          ("a/" ++ file) ("b/" ++ file))) := by
  constructor
  · intro h
    cases r1 <;> cases r2 <;> simp [FileResult.rtype] at h <;> rfl
  · intro h1 h2 df
    cases r1 <;> cases r2 <;> simp [FileResult.rtype] at h1 h2 <;> rfl

/-- Witness for C5: a nothing-changed/failed pair with `diff_failure` set
diffs the `[no crash]` and `[RuntimeError: heck no!]` tokens, and a
nothing-changed/reformatted pair diffs `src` against `dst`. -/
theorem diff_two_results_display_witness :
    diff_two_results (FileResult.nothingChanged ⟨"import x\n", 1⟩)
        (FileResult.failed ⟨"import x\n", "RuntimeError", "heck no!", none, 1⟩)
        "a.py" true =
      Except.ok "--- a/a.py\n+++ b/a.py\n@@ -1 +1 @@\n-[no crash]\n+[RuntimeError: heck no!]\n" ∧
    diff_two_results (FileResult.nothingChanged ⟨"import x\n", 1⟩)
        (FileResult.reformatted ⟨"import x\n", "import y\n", 1, (1, 1)⟩)
        "a.py" false =
      Except.ok "--- a/a.py\n+++ b/a.py\n@@ -1 +1 @@\n-import x\n+import y\n" := by
  constructor
  · rw [(diff_two_results_display (FileResult.nothingChanged ⟨"import x\n", 1⟩)
      (FileResult.failed ⟨"import x\n", "RuntimeError", "heck no!", none, 1⟩) "a.py").1
      (Or.inr rfl)]
    rfl
  · rw [(diff_two_results_display (FileResult.nothingChanged ⟨"import x\n", 1⟩)
      (FileResult.reformatted ⟨"import x\n", "import y\n", 1, (1, 1)⟩) "a.py").2
      (by decide) (by decide) false]
    rfl

/-! ### C6: `diff_two_results` on equal and on swapped arguments -/

/-- Spec-modelled sign swap of a diff text: every `+` line becomes a `-`
line and vice versa, leaving the `+++`/`---` file headers (which do not
depend on the argument order in `diff_two_results`) and context lines
untouched. -/
def swapDiffSigns (diff : String) : String :=
  String.join ((splitlinesKeepends diff).map (fun line =>
    if strStartsWith line "+++" ∨ strStartsWith line "---" then line
    else if strStartsWith line "+" then "-" ++ strDrop line 1
    else if strStartsWith line "-" then "+" ++ strDrop line 1
    else line))

/-- C6 (counterexample): the inverse-signed symmetry fails.  For the
nothing-changed pair `"x\ny\n"` / `"y\nx\n"`, the forward diff body is
`+y\n x\n-y\n` while the sign-swapped reverse diff body is `-x\n y\n+x\n`:
`difflib` chose a different common line in the two directions, so the two
texts differ (and not merely in the headers). -/
theorem diff_two_results_symmetry_counterexample :
    diff_two_results (FileResult.nothingChanged ⟨"x\ny\n", 2⟩)
        (FileResult.nothingChanged ⟨"y\nx\n", 2⟩) "a.py" false ≠
      Except.map swapDiffSigns
        (diff_two_results (FileResult.nothingChanged ⟨"y\nx\n", 2⟩)
          (FileResult.nothingChanged ⟨"x\ny\n", 2⟩) "a.py" false) := by
  rw [show diff_two_results (FileResult.nothingChanged ⟨"x\ny\n", 2⟩)
        (FileResult.nothingChanged ⟨"y\nx\n", 2⟩) "a.py" false =
      Except.ok "--- a/a.py\n+++ b/a.py\n@@ -1,2 +1,2 @@\n+y\n x\n-y\n" from rfl]
  rw [show Except.map swapDiffSigns
        (diff_two_results (FileResult.nothingChanged ⟨"y\nx\n", 2⟩)
          (FileResult.nothingChanged ⟨"x\ny\n", 2⟩) "a.py" false) =
      Except.ok "--- a/a.py\n+++ b/a.py\n@@ -1,2 +1,2 @@\n-x\n y\n+x\n" from rfl]
  intro h
  exact absurd (Except.ok.inj h) (by decide)

/-! #### The other half of C6: `diff_two_results(a, a)` is empty

`unified_diff s s = ""` holds for every string `s`: with `a = b` the
`find_longest_match` scan always returns a block on the diagonal (even when
autojunk drops popular lines), both extension loops then grow it to the
full range, so the opcodes collapse to a single `equal` run, which
`get_grouped_opcodes` suppresses. -/

theorem elemsEq_self (a : List String) (t : Nat) (ht : t < a.length) :
    elemsEq a a t t = true := by
  unfold elemsEq
  rw [List.getElem?_eq_getElem ht]
  simp

theorem okPair_oob (a : List String) (i j : Nat) (hj : a.length ≤ j) :
    okPair a a i j = false := by
  unfold okPair
  cases hi : a[i]? with
  | none => rfl
  | some x =>
    rw [List.getElem?_eq_none hj]
    rfl

theorem okPair_self_left (a : List String) (i j : Nat) (h : okPair a a i j = true) :
    okPair a a j j = true := by
  unfold okPair at h ⊢
  cases hi : a[i]? with
  | none => rw [hi] at h; exact absurd h (by simp)
  | some x =>
    rw [hi] at h
    obtain ⟨h1, h2⟩ := (Bool.and_eq_true _ _).mp h
    have hj : a[j]? = some x := by
      cases hj' : a[j]? with
      | none => rw [hj'] at h1; exact absurd h1 (by simp)
      | some y => rw [hj'] at h1; simp at h1; rw [h1]
    rw [hj]
    simp [h2]

theorem okPair_self_right (a : List String) (i j : Nat) (h : okPair a a i j = true) :
    okPair a a i i = true := by
  unfold okPair at h ⊢
  cases hi : a[i]? with
  | none => rw [hi] at h; exact absurd h (by simp)
  | some x =>
    rw [hi] at h
    obtain ⟨h1, h2⟩ := (Bool.and_eq_true _ _).mp h
    simp [h2]

theorem chainLen_oob (a : List String) (i j : Nat) (hj : a.length ≤ j) :
    chainLen a a 0 0 i j = 0 := by
  rw [chainLen_eq, if_neg]
  rw [okPair_oob a i j hj]
  exact Bool.false_ne_true

theorem chainLen_diag_left (a : List String) :
    ∀ j i, j ≤ i → chainLen a a 0 0 i j ≤ chainLen a a 0 0 j j := by
  intro j
  induction j using Nat.strong_induction_on with
  | _ j ih =>
    intro i hji
    by_cases hok : okPair a a i j
    · have hdg := okPair_self_left a i j hok
      rw [chainLen_eq a a 0 0 i j, if_pos hok, chainLen_eq a a 0 0 j j, if_pos hdg]
      by_cases hz : 0 < j
      · rw [if_pos (by omega : 0 < i ∧ 0 < j), if_pos (by omega : 0 < j ∧ 0 < j)]
        have := ih (j - 1) (by omega) (i - 1) (by omega)
        omega
      · rw [if_neg (by omega : ¬(0 < i ∧ 0 < j)), if_neg (by omega : ¬(0 < j ∧ 0 < j))]
    · rw [chainLen_eq a a 0 0 i j, if_neg hok]
      exact Nat.zero_le _

theorem chainLen_diag_right (a : List String) :
    ∀ i j, i ≤ j → chainLen a a 0 0 i j ≤ chainLen a a 0 0 i i := by
  intro i
  induction i using Nat.strong_induction_on with
  | _ i ih =>
    intro j hij
    by_cases hok : okPair a a i j
    · have hdg := okPair_self_right a i j hok
      rw [chainLen_eq a a 0 0 i j, if_pos hok, chainLen_eq a a 0 0 i i, if_pos hdg]
      by_cases hz : 0 < i
      · rw [if_pos (by omega : 0 < i ∧ 0 < j), if_pos (by omega : 0 < i ∧ 0 < i)]
        have := ih (i - 1) (by omega) (j - 1) (by omega)
        omega
      · rw [if_neg (by omega : ¬(0 < i ∧ 0 < j)), if_neg (by omega : ¬(0 < i ∧ 0 < i))]
    · rw [chainLen_eq a a 0 0 i j, if_neg hok]
      exact Nat.zero_le _


theorem scanStep_diag (a : List String) (i j : Nat) (m : MatchBlock)
    (hd : m.i = m.j)
    (hintra : ∀ c, c < j → chainLen a a 0 0 i c ≤ m.size)
    (hcross : ∀ r c, r < i → chainLen a a 0 0 r c ≤ m.size) :
    (scanStep a a 0 0 i m j).i = (scanStep a a 0 0 i m j).j ∧
    m.size ≤ (scanStep a a 0 0 i m j).size ∧
    chainLen a a 0 0 i j ≤ (scanStep a a 0 0 i m j).size := by
  unfold scanStep
  by_cases hlt : m.size < chainLen a a 0 0 i j
  · rw [if_pos hlt]
    have hij : i = j := by
      rcases Nat.lt_trichotomy i j with h | h | h
      · have h1 := chainLen_diag_right a i j (by omega)
        have h2 := hintra i h
        omega
      · exact h
      · have h1 := chainLen_diag_left a j i (by omega)
        have h2 := hcross j j h
        omega
    subst hij
    exact ⟨rfl, Nat.le_of_lt hlt, le_rfl⟩
  · rw [if_neg hlt]
    exact ⟨hd, le_rfl, by omega⟩

theorem scanRowGo_diag (a : List String) (i : Nat) :
    ∀ cnt j (m : MatchBlock), m.i = m.j →
      (∀ c, c < j → chainLen a a 0 0 i c ≤ m.size) →
      (∀ r c, r < i → chainLen a a 0 0 r c ≤ m.size) →
      (scanRowGo a a 0 0 i m j cnt).i = (scanRowGo a a 0 0 i m j cnt).j ∧
      (∀ c, c < j + cnt → chainLen a a 0 0 i c ≤ (scanRowGo a a 0 0 i m j cnt).size) ∧
      (∀ r c, r < i → chainLen a a 0 0 r c ≤ (scanRowGo a a 0 0 i m j cnt).size) := by
  intro cnt
  induction cnt with
  | zero =>
    intro j m hd hintra hcross
    exact ⟨hd, fun c hc => hintra c (by omega), hcross⟩
  | succ n ih =>
    intro j m hd hintra hcross
    obtain ⟨sd, ss, sk⟩ := scanStep_diag a i j m hd hintra hcross
    have hintra2 : ∀ c, c < j + 1 →
        chainLen a a 0 0 i c ≤ (scanStep a a 0 0 i m j).size := by
      intro c hc
      rcases Nat.lt_or_ge c j with h | h
      · exact le_trans (hintra c h) ss
      · have hcj : c = j := by omega
        subst hcj
        exact sk
    have hcross2 : ∀ r c, r < i →
        chainLen a a 0 0 r c ≤ (scanStep a a 0 0 i m j).size :=
      fun r c hr => le_trans (hcross r c hr) ss
    have hrec := ih (j + 1) (scanStep a a 0 0 i m j) sd hintra2 hcross2
    rw [scanRowGo]
    exact ⟨hrec.1, fun c hc => hrec.2.1 c (by omega), hrec.2.2⟩

theorem scanAllGo_diag (a : List String) :
    ∀ cnt i (m : MatchBlock), m.i = m.j →
      (∀ r c, r < i → chainLen a a 0 0 r c ≤ m.size) →
      (scanAllGo a a 0 0 a.length m i cnt).i = (scanAllGo a a 0 0 a.length m i cnt).j := by
  intro cnt
  induction cnt with
  | zero => intro i m hd _; exact hd
  | succ n ih =>
    intro i m hd hcross
    rw [scanAllGo]
    obtain ⟨sd, sin, scr⟩ := scanRowGo_diag a i (a.length - 0) 0 m hd
      (fun c hc => absurd hc (by omega)) hcross
    refine ih (i + 1) _ sd ?_
    intro r c hr
    rcases Nat.lt_or_ge r i with h | h
    · exact scr r c h
    · have hri : r = i := by omega
      subst hri
      rcases Nat.lt_or_ge c a.length with h2 | h2
      · exact sin c (by omega)
      · rw [chainLen_oob a r c h2]
        exact Nat.zero_le _

theorem scanBest_diag (a : List String) :
    (scanBest a a 0 a.length 0 a.length).i = (scanBest a a 0 a.length 0 a.length).j := by
  unfold scanBest
  exact scanAllGo_diag a (a.length - 0) 0 ⟨0, 0, 0⟩ rfl
    (fun r c hr => absurd hr (by omega))

theorem extendBackGo_diag (a : List String) :
    ∀ fuel i k, fuel = i → i ≤ a.length →
      extendBackGo a a 0 0 fuel ⟨i, i, k⟩ = ⟨0, 0, k + i⟩ := by
  intro fuel
  induction fuel with
  | zero =>
    intro i k hf hi
    have hi0 : i = 0 := hf.symm
    subst hi0
    rfl
  | succ f ih =>
    intro i k hf hi
    have hi0 : 0 < i := by omega
    have hel : elemsEq a a (i - 1) (i - 1) = true := elemsEq_self a (i - 1) (by omega)
    rw [extendBackGo, if_pos (show 0 < i ∧ 0 < i ∧ elemsEq a a (i - 1) (i - 1) = true
      from ⟨hi0, hi0, hel⟩)]
    have hrec := ih (i - 1) (k + 1) (by omega) (by omega)
    have harith : k + 1 + (i - 1) = k + i := by omega
    rw [harith] at hrec
    exact hrec

theorem extendFwdGo_diag (a : List String) :
    ∀ fuel k, fuel = a.length - k → k ≤ a.length →
      extendFwdGo a a a.length a.length fuel ⟨0, 0, k⟩ = ⟨0, 0, a.length⟩ := by
  intro fuel
  induction fuel with
  | zero =>
    intro k hf hk
    have hk0 : k = a.length := by omega
    subst hk0
    rfl
  | succ f ih =>
    intro k hf hk
    have hk0 : k < a.length := by omega
    have hel : elemsEq a a (0 + k) (0 + k) = true := by
      rw [Nat.zero_add]
      exact elemsEq_self a k hk0
    rw [extendFwdGo, if_pos (show 0 + k < a.length ∧ 0 + k < a.length ∧
      elemsEq a a (0 + k) (0 + k) = true from ⟨by omega, by omega, hel⟩)]
    exact ih (k + 1) (by omega) (by omega)

theorem findLongestMatch_self (a : List String) :
    findLongestMatch a a 0 a.length 0 a.length = ⟨0, 0, a.length⟩ := by
  have hdiag := scanBest_diag a
  have hinv := scanBest_inv a a 0 a.length 0 a.length
  unfold findLongestMatch
  rcases hsb : scanBest a a 0 a.length 0 a.length with ⟨mi, mj, ms⟩
  rw [hsb] at hdiag hinv
  have hd : mi = mj := hdiag
  subst hd
  have hub : mi + ms ≤ a.length := by
    by_cases h0 : ms = 0
    · have hz := hinv.zero h0
      have hz1 : mi = 0 := congrArg MatchBlock.i hz
      omega
    · exact hinv.iub h0
  have hb : extendBack a a 0 0 ⟨mi, mi, ms⟩ = ⟨0, 0, ms + mi⟩ :=
    extendBackGo_diag a mi mi ms rfl (by omega)
  rw [hb]
  unfold extendFwd
  exact extendFwdGo_diag a (a.length - (0 + (ms + mi))) (ms + mi) (by omega) (by omega)

theorem matchingBlocksGo_self (a : List String) :
    ∀ fuel, fuel ≠ 0 → a.length ≠ 0 →
      matchingBlocksGo a a fuel 0 a.length 0 a.length = [⟨0, 0, a.length⟩] := by
  intro fuel hf hn
  cases fuel with
  | zero => exact absurd rfl hf
  | succ f =>
    rw [matchingBlocksGo, findLongestMatch_self a]
    simp [hn]

theorem getMatchingBlocks_self (a : List String) (hn : a.length ≠ 0) :
    getMatchingBlocks a a = [⟨0, 0, a.length⟩, ⟨a.length, a.length, 0⟩] := by
  unfold getMatchingBlocks matchingBlocksRec
  rw [matchingBlocksGo_self a (a.length - 0) (by omega) hn]
  simp [mergeBlocks, hn]

theorem getOpcodes_self (a : List String) (hn : a.length ≠ 0) :
    getOpcodes a a = [⟨Tag.equal, 0, a.length, 0, a.length⟩] := by
  unfold getOpcodes
  rw [getMatchingBlocks_self a hn]
  simp [opcodesAux, hn]

theorem getGroupedOpcodes_self (a : List String) :
    getGroupedOpcodes 5 a a = [] := by
  by_cases hn : a.length = 0
  · have ha : a = [] := List.eq_nil_of_length_eq_zero hn
    subst ha
    rfl
  · unfold getGroupedOpcodes
    rw [getOpcodes_self a hn]
    dsimp only
    have h1 : ¬([(⟨Tag.equal, 0, a.length, 0, a.length⟩ : Opcode)] = []) := by simp
    rw [if_neg h1]
    rw [fixupFirst, if_pos rfl]
    rw [fixupLast]
    have harith : ¬(5 + 5 < min a.length (max 0 (a.length - 5) + 5) - max 0 (a.length - 5)) := by
      omega
    simp [groupedAux, harith]
    omega

theorem unified_diff_self (s a_name b_name : String) :
    unified_diff s s a_name b_name = "" := by
  unfold unified_diff difflibUnifiedDiff
  rw [getGroupedOpcodes_self]
  rfl


/-- C6 (amended): for every non-failing file result `r` and every file
name, `diff_two_results r r` is the empty string.  (The inverse-signed
symmetry half of the original claim is refuted by
`diff_two_results_symmetry_counterexample` above.) -/
theorem diff_two_results_self (r : FileResult) (file : String)
    (diff_failure : Bool) (h : r.rtype ≠ RType.failed) :
    diff_two_results r r file diff_failure = Except.ok "" := by
  unfold diff_two_results
  rw [if_neg (show ¬(r.rtype = RType.failed ∨ r.rtype = RType.failed) from
    fun hc => hc.elim h h)]
  cases r with
  | nothingChanged q => rw [unified_diff_self]
  | reformatted q => rw [unified_diff_self]
  | failed q => exact absurd rfl h

/-- Witness for C6 (amended) on a concrete nothing-changed result. -/
theorem diff_two_results_self_witness :
    diff_two_results (FileResult.nothingChanged ⟨"x\n", 1⟩)
      (FileResult.nothingChanged ⟨"x\n", 1⟩) "a.py" false = Except.ok "" :=
  diff_two_results_self (FileResult.nothingChanged ⟨"x\n", 1⟩) "a.py" false (by decide)

end DiffShades
